import Mathlib

/-!
# Verification of the round-aware build orchestration core

Shallow embedding of the build orchestrator of the automated app-builder
repository (`builder.py` together with `utils/attachment_utils.py`,
`utils/github_utils.py`, `utils/aipipe_utils.py` and `database.py`).

External collaborators (HTTP transport, the generation provider, the
repository provider, the filesystem and the wall clock) are modelled as an
explicit oracle record `Env`; every decision made by the orchestrator itself
is translated directly from the Python source.  Byte strings are modelled as
`List Nat` (each entry one byte value), Python `dict`s of files as ordered
association lists with in-place update, and the SQLite store as two lists of
rows.
-/

set_option maxHeartbeats 1000000
set_option maxRecDepth 100000

namespace AppBuilder

/-- One byte value; the Python code manipulates `bytes` objects. -/
abbrev Byte := Nat

/-- A file content value as it sits in the `files_to_commit` dictionary of
`builder.py`: either a Python `str` or a Python `bytes`. -/
inductive Content where
  | str (s : String)
  | bytes (b : List Byte)
deriving DecidableEq, Repr

/-- An inbound attachment of a build request (`Attachment` pydantic model in
`app.py`: `name`, `url`, optional `content_type`). -/
structure Att where
  name : String
  url : String
  content_type : Option String := none
deriving DecidableEq, Repr

/-- The file-info dictionary returned by
`AttachmentProcessor._process_single_attachment`.  The Python code writes the
decoded bytes to `path` inside a temporary directory and the builder reads
them back before committing; the round-trip through the filesystem is
collapsed here by carrying the decoded bytes in `content`. -/
structure ProcessedFile where
  name : String
  path : String
  mime_type : String
  size : Nat
  original_url : String
  content : List Byte
deriving DecidableEq, Repr

/-- A row of the `app_requests` table (`AppRequest` in `database.py`);
auto-increment id and timestamps are irrelevant to the verified properties
and omitted. -/
structure AppRequest where
  email : String
  task : String
  round_num : Nat
  nonce : String
  brief : String
  checks : List String
  evaluation_url : String
  attachments : List Att
  secret : String
deriving DecidableEq, Repr

/-- A value stored in the `pages_url` column or reported in the notification
payload.  The round-2 fallback-create path of `builder.py` assigns the
*boolean* return value of `enable_github_pages` to `pages_url`, so the field
is dynamically either a string or a boolean. -/
inductive PageVal where
  | str (s : String)
  | bool (b : Bool)
deriving DecidableEq, Repr

/-- A row of the `llm_responses` table (`LLMResponse` in `database.py`). -/
structure LLMResponse where
  task : String
  round_num : Nat
  generated_code : String
  repo_url : String
  pages_url : PageVal
  commit_sha : String
deriving DecidableEq, Repr

/-- The persistent store: the two SQLite tables. -/
structure DB where
  appRequests : List AppRequest
  llmResponses : List LLMResponse
deriving DecidableEq, Repr

/-- A validated inbound build request (`request_data` in `builder.py`). -/
structure BuildRequest where
  email : String
  task : String
  round : Nat
  nonce : String
  brief : String
  checks : List String
  evaluation_url : String
  attachments : List Att
  secret : String
deriving DecidableEq, Repr

/-- A repository handle as used by the builder: PyGithub's repository object
restricted to the two fields the orchestrator reads. -/
structure Repo where
  name : String
  html_url : String
deriving DecidableEq, Repr

/-- The JSON body POSTed to the evaluation endpoint
(`evaluation_data` in `builder.py`). -/
structure Payload where
  email : String
  task : String
  round : Nat
  nonce : String
  repo_url : String
  commit_sha : String
  pages_url : PageVal
deriving DecidableEq, Repr

end AppBuilder

namespace AppBuilder

/-! ## Base64 (Python `base64.b64encode` / `base64.b64decode`) -/

/-- The standard base64 alphabet. -/
def b64Alphabet : List Char :=
  "ABCDEFGHIJKLMNOPQRSTUVWXYZabcdefghijklmnopqrstuvwxyz0123456789+/".toList

/-- The base64 digit for a 6-bit value. -/
def b64Char (n : Nat) : Char := b64Alphabet.getD n 'A'

/-- The 6-bit value of a base64 digit, `none` for a non-alphabet character. -/
def b64Val (c : Char) : Option Nat :=
  if c ∈ b64Alphabet then some (b64Alphabet.indexOf c) else none

/-- Core of `base64.b64encode`: three input bytes become four digits, with
`=` padding for a final group of one or two bytes. -/
def b64encodeCore : List Byte → List Char
  | [] => []
  | [a] => [b64Char (a / 4), b64Char (a % 4 * 16), '=', '=']
  | [a, b] => [b64Char (a / 4), b64Char (a % 4 * 16 + b / 16), b64Char (b % 16 * 4), '=']
  | a :: b :: c :: rest =>
      b64Char (a / 4) :: b64Char (a % 4 * 16 + b / 16) ::
      b64Char (b % 16 * 4 + c / 64) :: b64Char (c % 64) :: b64encodeCore rest

/-- `base64.b64encode(bs).decode('utf-8')`: the ASCII base64 text of a byte
string. -/
def b64encode (bs : List Byte) : String := String.mk (b64encodeCore bs)

/-- Strict group decoding: four digits to three bytes, a final `xx==` group
to one byte and a final `xxx=` group to two bytes; anything else fails. -/
def b64decodeGroups : List Char → Option (List Byte)
  | [] => some []
  | [a, b, '=', '='] => do
      let va ← b64Val a
      let vb ← b64Val b
      pure [va * 4 + vb / 16]
  | [a, b, c, '='] => do
      let va ← b64Val a
      let vb ← b64Val b
      let vc ← b64Val c
      pure [va * 4 + vb / 16, vb % 16 * 16 + vc / 4]
  | a :: b :: c :: d :: rest => do
      let va ← b64Val a
      let vb ← b64Val b
      let vc ← b64Val c
      let vd ← b64Val d
      let tail ← b64decodeGroups rest
      pure ((va * 4 + vb / 16) :: (vb % 16 * 16 + vc / 4) :: (vc % 4 * 64 + vd) :: tail)
  | _ => none

/-- `base64.b64decode`: non-alphabet characters are skipped by `binascii`
(modelled by the filter), then the digits are decoded in groups of four;
a leftover group is a padding error and raises, modelled as `none`. -/
def b64decode (s : String) : Option (List Byte) :=
  b64decodeGroups (s.toList.filter fun c => c ∈ b64Alphabet || c = '=')

end AppBuilder

namespace AppBuilder

/-! ## Executable string primitives

Core `String.startsWith`, `endsWith`, `toLower`, `trim` and `splitOn` are
implemented on byte positions (partly by well-founded recursion) and do not
reduce inside the kernel; the embedding uses these character-list
equivalents, which agree with them, so that every definition evaluates under
`decide`. -/

/-- `s.startswith(p)`. -/
def strStartsWith (s p : String) : Bool := p.toList.isPrefixOf s.toList

/-- `s.endswith(p)`. -/
def strEndsWith (s p : String) : Bool := p.toList.isSuffixOf s.toList

/-- `s.lower()` (ASCII case folding, as SQL `ILIKE` performs). -/
def strToLower (s : String) : String := String.mk (s.toList.map Char.toLower)

/-- `s[n:]`. -/
def strDrop (s : String) (n : Nat) : String := String.mk (s.toList.drop n)

/-- `s[:-n]`. -/
def strDropRight (s : String) (n : Nat) : String :=
  String.mk (s.toList.take (s.toList.length - n))

/-- `s.strip()` (over the ASCII whitespace the generated text contains). -/
def strTrim (s : String) : String :=
  String.mk
    (((s.toList.dropWhile Char.isWhitespace).reverse.dropWhile Char.isWhitespace).reverse)

/-- `s.split(sep)` for a single-character separator, on character lists. -/
def splitOnChar (sep : Char) : List Char → List (List Char)
  | [] => [[]]
  | c :: rest =>
    let r := splitOnChar sep rest
    if c = sep then [] :: r
    else (c :: r.headD []) :: r.tail

/-- `s.split(sep)` for a single-character separator. -/
def strSplitOnChar (sep : Char) (s : String) : List String :=
  (splitOnChar sep s.toList).map String.mk

/-- `sep.join(parts)`. -/
def joinWith (sep : String) : List String → String
  | [] => ""
  | [x] => x
  | x :: xs => x ++ sep ++ joinWith sep xs

/-! ## UTF-8 decoding (Python `bytes.decode('utf-8')`) -/

/-- Strict UTF-8 decoding of a byte string into characters; `none` models the
`UnicodeDecodeError` raised by Python's `bytes.decode('utf-8')`.  Lead bytes
select the sequence length; continuation bytes are range-checked, overlong
encodings and surrogate code points are rejected. -/
def utf8DecodeAux : List Byte → Option (List Char)
  | [] => some []
  | b :: bs =>
    if b ≤ 0x7F then
      match utf8DecodeAux bs with
      | some cs => some (Char.ofNat b :: cs)
      | none => none
    else if 0xC2 ≤ b ∧ b ≤ 0xDF then
      match bs with
      | b1 :: bs2 =>
        if 0x80 ≤ b1 ∧ b1 ≤ 0xBF then
          match utf8DecodeAux bs2 with
          | some cs => some (Char.ofNat ((b - 0xC0) * 0x40 + (b1 - 0x80)) :: cs)
          | none => none
        else none
      | [] => none
    else if 0xE0 ≤ b ∧ b ≤ 0xEF then
      match bs with
      | b1 :: b2 :: bs3 =>
        let lo1 := if b = 0xE0 then 0xA0 else 0x80
        let hi1 := if b = 0xED then 0x9F else 0xBF
        if lo1 ≤ b1 ∧ b1 ≤ hi1 ∧ 0x80 ≤ b2 ∧ b2 ≤ 0xBF then
          match utf8DecodeAux bs3 with
          | some cs =>
              some (Char.ofNat ((b - 0xE0) * 0x1000 + (b1 - 0x80) * 0x40 + (b2 - 0x80)) :: cs)
          | none => none
        else none
      | _ => none
    else if 0xF0 ≤ b ∧ b ≤ 0xF4 then
      match bs with
      | b1 :: b2 :: b3 :: bs4 =>
        let lo1 := if b = 0xF0 then 0x90 else 0x80
        let hi1 := if b = 0xF4 then 0x8F else 0xBF
        if lo1 ≤ b1 ∧ b1 ≤ hi1 ∧ 0x80 ≤ b2 ∧ b2 ≤ 0xBF ∧ 0x80 ≤ b3 ∧ b3 ≤ 0xBF then
          match utf8DecodeAux bs4 with
          | some cs =>
              some (Char.ofNat ((b - 0xF0) * 0x40000 + (b1 - 0x80) * 0x1000 +
                (b2 - 0x80) * 0x40 + (b3 - 0x80)) :: cs)
          | none => none
        else none
      | _ => none
    else none

/-- `bytes.decode('utf-8')` as an `Option`-valued function. -/
def utf8Decode (bs : List Byte) : Option String :=
  (utf8DecodeAux bs).map String.mk

/-! ## Attachment resolver (`utils/attachment_utils.py`) -/

/-- The `mime_to_ext` table of
`AttachmentProcessor._get_extension_from_mime_type`. -/
def getExtensionFromMimeType (mime : String) : Option String :=
  if mime = "image/png" then some "png"
  else if mime = "image/jpeg" then some "jpg"
  else if mime = "image/gif" then some "gif"
  else if mime = "image/svg+xml" then some "svg"
  else if mime = "text/plain" then some "txt"
  else if mime = "text/csv" then some "csv"
  else if mime = "application/json" then some "json"
  else if mime = "application/pdf" then some "pdf"
  else if mime = "text/markdown" then some "md"
  else if mime = "text/html" then some "html"
  else if mime = "application/javascript" then some "js"
  else if mime = "text/css" then some "css"
  else none

/-- Python's `url.split(',', 1)` followed by the two-element unpacking:
`none` when the string holds no comma (the `ValueError` case). -/
def splitFirstComma (s : String) : Option (String × String) :=
  match strSplitOnChar ',' s with
  | [] => none
  | [_] => none
  | h :: t => some (h, joinWith "," t)

/-- `header.split(';')[0].split(':')[1]`: the MIME type of a data-URI header;
`none` models the `IndexError` when no colon is present (unreachable for a
URL that starts with `data:`). -/
def mimeFromHeader (header : String) : Option String :=
  match strSplitOnChar ':' ((strSplitOnChar ';' header).headD "") with
  | _ :: m :: _ => some m
  | _ => none

/-- `AttachmentProcessor._process_single_attachment`: decodes one inline
data-URI attachment.  Every raised exception is caught by the function itself
and turned into `None`; an attachment whose `url` does not start with `data:`
is skipped with a warning.  Note that the `encoding` local of the Python code
is initialised to `'base64'` and only ever reassigned to `'base64'`, so the
data part is always base64-decoded. -/
def process_single_attachment (a : Att) : Option ProcessedFile :=
  let name := a.name
  let url := a.url
  if ¬ strStartsWith url "data:" then none
  else
    match splitFirstComma url with
    | none => none
    | some (header, data) =>
      match mimeFromHeader header with
      | none => none
      | some mime =>
        match b64decode data with
        | none => none
        | some fileData =>
          let name :=
            match getExtensionFromMimeType mime with
            | some ext => if strEndsWith name ext then name else name ++ "." ++ ext
            | none => name
          some { name := name, path := name, mime_type := mime,
                 size := fileData.length, original_url := url, content := fileData }

/-- `AttachmentProcessor.process_attachments`: processes each attachment,
keeping the successful results in order; failures are logged and dropped. -/
def process_attachments : List Att → List ProcessedFile
  | [] => []
  | a :: rest =>
    match process_single_attachment a with
    | some f => f :: process_attachments rest
    | none => process_attachments rest

end AppBuilder

namespace AppBuilder

/-! ## Content generator adapter (`utils/aipipe_utils.py`, `builder.py`) -/

/-- `AIPipeClient._clean_generated_code`: strips enclosing markdown fences
and surrounding whitespace from the raw completion text. -/
def cleanGeneratedCode (code : String) : String :=
  let code :=
    if strStartsWith code "```html" then strDrop code 7
    else if strStartsWith code "```" then strDrop code 3
    else code
  let code := if strEndsWith code "```" then strDropRight code 3 else code
  strTrim code

/-- `AIPipeClient.generate_code`: the provider interaction is an oracle
outcome — `.error ()` a raised transport exception, `.ok none` a non-200
status, `.ok (some raw)` a 200 response whose completion text is `raw`.
Both failure shapes return `None`; a success is cleaned before returning.
Prompt construction (`_create_initial_prompt` / `_create_revision_prompt`)
only shapes the outbound request and is absorbed by the oracle. -/
def aipipe_generate_code (api : Except Unit (Option String)) : Option String :=
  match api with
  | .error _ => none
  | .ok none => none
  | .ok (some raw) => some (cleanGeneratedCode raw)

/-- `AppBuilder._get_fallback_calculator`: the fixed error page returned when
generation fails. -/
def fallbackCalculator : String :=
  r#"<!DOCTYPE html>
<html lang="en">
<head>
    <meta charset="UTF-8">
    <meta name="viewport" content="width=device-width, initial-scale=1.0">
    <title>App Generation Error</title>
    <link href="https://cdn.jsdelivr.net/npm/bootstrap@5.3.0/dist/css/bootstrap.min.css" rel="stylesheet">
</head>
<body>
    <div class="container mt-5">
        <div class="row justify-content-center">
            <div class="col-md-6">
                <div class="alert alert-danger text-center">
                    <h4>App Generation Failed</h4>
                    <p>Sorry, we couldn't generate your app at this time. Please try again later.</p>
                    <p class="mb-0">Error: AI code generation service is currently unavailable.</p>
                </div>
            </div>
        </div>
    </div>
</body>
</html>"#

/-- `AppBuilder.generate_code_with_ai`: a truthy provider result is returned
as-is; `None`, the empty string (falsy in Python) and a raised exception all
yield the fixed fallback page. -/
def generate_code_with_ai (api : Except Unit (Option String)) : String :=
  match aipipe_generate_code api with
  | some code => if code = "" then fallbackCalculator else code
  | none => fallbackCalculator

/-! ## Repository publisher adapter (`utils/github_utils.py`, `builder.py`) -/

/-- `GitHubManager.get_pages_url`: pure derivation of the serving URL. -/
def get_pages_url (username name : String) : String :=
  "https://" ++ username ++ ".github.io/" ++ name ++ "/"

/-- The content string handed to PyGithub's `create_file`/`update_file` by
`GitHubManager.create_file`: `bytes` content is base64-encoded to an ASCII
string first, `str` content is passed through unchanged. -/
def githubFilePayload : Content → String
  | .str s => s
  | .bytes b => b64encode b

/-- `AppBuilder.commit_and_push`: upserts every file (a failed upsert sets
`success = False` but the loop continues), then fetches the latest commit sha
only when every upsert succeeded; returns `None` otherwise.
`fileOk` is the oracle for the per-path upsert outcome and `latestSha` the
oracle for `get_latest_commit_sha`.  The second component records, in order,
every `(path, content)` pair handed to the provider's file-creation call. -/
def commit_and_push (fileOk : String → Bool) (latestSha : Option String)
    (files : List (String × Content)) : Option String × List (String × String) :=
  let writes := files.map fun p => (p.1, githubFilePayload p.2)
  if files.all fun p => fileOk p.1 then (latestSha, writes) else (none, writes)

/-- `GitHubManager.update_existing_repo`: resolves the repository from its
URL (`repoFetchOk` oracle; a raise returns `None` with no writes attempted),
then upserts each file, fetching the latest commit sha after every upsert
(`commitsSha` oracle, `none` modelling a raise, which is caught per-file and
sets `success = False`).  The final sha is returned only when `success`
survived every iteration; with an empty file dict the initial `commit_sha =
None` is returned. -/
def update_existing_repo (repoFetchOk : Bool) (fileOk : String → Bool)
    (commitsSha : Option String) (files : List (String × Content)) :
    Option String × List (String × String) :=
  if repoFetchOk then
    let writes := files.map fun p => (p.1, githubFilePayload p.2)
    let success := (files.all fun p => fileOk p.1) && (files.isEmpty || commitsSha.isSome)
    let commit_sha := if files.isEmpty then none else commitsSha
    (if success then commit_sha else none, writes)
  else (none, [])

/-! ## Evaluation notifier (`AppBuilder.notify_evaluation`) -/

/-- The observable behaviour of one `notify_evaluation` call: the returned
boolean, the backoff sleeps performed (in seconds, in order) and the number
of POST attempts made. -/
structure NotifyTrace where
  result : Bool
  sleeps : List Nat
  attempts : Nat
deriving DecidableEq, Repr

/-- The retry loop of `notify_evaluation` from attempt index `attempt` with
`remaining` loop iterations left.  `oc i = true` means the POST of attempt
index `i` (0-based) returned HTTP 200; any other status and any raised
exception are `false`.  A failed attempt that is not the last sleeps
`2 ^ attempt` seconds. -/
def notifyAux (oc : Nat → Bool) (attempt : Nat) : Nat → NotifyTrace
  | 0 => ⟨false, [], attempt⟩
  | 1 => ⟨oc attempt, [], attempt + 1⟩
  | r + 2 =>
    if oc attempt then ⟨true, [], attempt + 1⟩
    else
      let t := notifyAux oc (attempt + 1) (r + 1)
      ⟨t.result, 2 ^ attempt :: t.sleeps, t.attempts⟩

/-- `AppBuilder.notify_evaluation(url, data, max_retries)`: the url and body
do not influence control flow and are dropped; the loop runs over
`range(max_retries)`.  Total by construction, reflecting the catch-all
exception handlers around the POST. -/
def notify_evaluation (oc : Nat → Bool) (max_retries : Nat) : NotifyTrace :=
  notifyAux oc 0 max_retries

/-! ## Build history store (`database.py` + the queries in `builder.py`) -/

/-- SQL `ILIKE` comparison as used by `AppRequest.task.ilike(task)`:
case-insensitive match (for task identifiers free of the `%`/`_` wildcard
characters this is exactly case-insensitive equality). -/
def ilike (a b : String) : Bool := strToLower a == strToLower b

/-- The round-1 `AppRequest` lookup of `_handle_round2` /
`_handle_round2_with_fallback` (`.first()` on the filtered query). -/
def findRound1Request (db : DB) (task : String) : Option AppRequest :=
  db.appRequests.find? fun r => ilike r.task task && r.round_num == 1

/-- The round-1 `LLMResponse` lookup of `_handle_round2` /
`_handle_round2_with_fallback`. -/
def findRound1Response (db : DB) (task : String) : Option LLMResponse :=
  db.llmResponses.find? fun r => ilike r.task task && r.round_num == 1

/-- The `existing_request` check of `_handle_round1` (exact task match). -/
def hasExactRound1 (db : DB) (task : String) : Bool :=
  db.appRequests.any fun r => r.task == task && r.round_num == 1

/-- The round-1 cleanup of `_handle_round1`: deletes every `(task, 1)` row
from both tables (exact task match). -/
def deleteRound1 (db : DB) (task : String) : DB :=
  { appRequests := db.appRequests.filter fun r => !(r.task == task && r.round_num == 1),
    llmResponses := db.llmResponses.filter fun r => !(r.task == task && r.round_num == 1) }

/-- `db.add(app_request); db.commit()`: the table has a unique constraint on
`(task, round_num)`, so inserting a duplicate key raises an `IntegrityError`
(modelled as `none`) that the calling handler's `except` turns into a failed
run. -/
def insertAppRequest (db : DB) (r : AppRequest) : Option DB :=
  if db.appRequests.any fun x => x.task == r.task && x.round_num == r.round_num then none
  else some { db with appRequests := db.appRequests ++ [r] }

/-- `db.add(llm_response); db.commit()`: no unique constraint. -/
def insertLLMResponse (db : DB) (r : LLMResponse) : DB :=
  { db with llmResponses := db.llmResponses ++ [r] }

/-- The `AppRequest(...)` constructor call of the handlers: a new row from
the request fields with an explicit stored round number. -/
def reqToAppRequest (req : BuildRequest) (round_num : Nat) : AppRequest :=
  { email := req.email, task := req.task, round_num := round_num, nonce := req.nonce,
    brief := req.brief, checks := req.checks, evaluation_url := req.evaluation_url,
    attachments := req.attachments, secret := req.secret }

end AppBuilder

namespace AppBuilder

/-! ## Build orchestrator (`builder.py`) -/

/-- The external-world oracle for one `build_app` run: configuration read
from the environment plus the outcome of every provider interaction the run
may perform. -/
structure Env where
  /-- `GITHUB_USERNAME`. -/
  username : String
  /-- `datetime.now().year`, used by `create_mit_license`. -/
  year : Nat
  /-- `datetime.now().strftime(...)`, used by `create_readme`. -/
  nowStr : String
  /-- Outcome of the AIPipe chat-completion call (see
  `aipipe_generate_code`). -/
  genOutcome : Except Unit (Option String)
  /-- Result of `GitHubManager.create_repository` (`none` = provider error). -/
  createRepo : Option Repo
  /-- Result of `GitHubManager.get_repository("app-{task}")` in the round-2
  fallback lookup. -/
  getRepo : Option Repo
  /-- Whether the bare `github.get_repo` call of `_handle_round2` (used to
  re-trigger Pages) succeeds; a raise aborts that handler. -/
  getRepo2Ok : Bool
  /-- Per-path success of `GitHubManager.create_file`. -/
  fileWriteOk : String → Bool
  /-- Result of `GitHubManager.get_latest_commit_sha`. -/
  latestSha : Option String
  /-- Whether `update_existing_repo`'s own repository fetch succeeds. -/
  updateRepoFetchOk : Bool
  /-- Result of `repo.get_commits()[0].sha` inside `update_existing_repo`
  (`none` = the fetch raises). -/
  commitsSha : Option String
  /-- Result of `GitHubManager.enable_pages`. -/
  pagesOk : Bool

/-- Which branch of the orchestrator a run took.  `fallbackRevise` is the
intended revise-an-existing-repository branch of
`_handle_round2_with_fallback`; the source can never take it, because the
call `self._update_existing_repo_with_fallback(existing_repo, request_data,
processed_attachments)` references the local `processed_attachments` before
assignment, raising `UnboundLocalError` inside the surrounding `try`. -/
inductive PathTaken where
  | round1
  | round2Normal
  | fallbackCreate
  | fallbackRevise
deriving DecidableEq, Repr

/-- The observable outcome of one `build_app` run: the store afterwards, the
notification attempt sequences performed (one entry per `notify_evaluation`
call, carrying the target URL and the JSON payload), the returned boolean,
the branch taken, whether the fallback found an existing repository and
attempted (and crashed) the revise call, the final `files_to_commit` /
`files_to_update` dictionary of the publish step, and every `(path, content)`
pair handed to the provider's file-creation call. -/
structure RunResult where
  db : DB
  notified : List (String × Payload)
  ok : Bool
  path : PathTaken
  reviseAttempted : Bool
  publishedFiles : List (String × Content)
  providerWrites : List (String × String)
deriving DecidableEq, Repr

/-- A failed run that performed no publish and no notification. -/
def failRes (db : DB) (path : PathTaken) (reviseAttempted : Bool := false) : RunResult :=
  { db := db, notified := [], ok := false, path := path,
    reviseAttempted := reviseAttempted, publishedFiles := [], providerWrites := [] }

/-- `AppBuilder.create_mit_license`: the static license text with the
current year and the configured username interpolated. -/
def create_mit_license (year : Nat) (username : String) : String :=
  "MIT License\n\nCopyright (c) " ++ toString year ++ " " ++ username ++ "\n\n" ++
  r#"Permission is hereby granted, free of charge, to any person obtaining a copy
of this software and associated documentation files (the "Software"), to deal
in the Software without restriction, including without limitation the rights
to use, copy, modify, merge, publish, distribute, sublicense, and/or sell
copies of the Software, and to permit persons to whom the Software is
furnished to do so, subject to the following conditions:

The above copyright notice and this permission notice shall be included in all
copies or substantial portions of the Software.

THE SOFTWARE IS PROVIDED "AS IS", WITHOUT WARRANTY OF ANY KIND, EXPRESS OR
IMPLIED, INCLUDING BUT NOT LIMITED TO THE WARRANTIES OF MERCHANTABILITY,
FITNESS FOR A PARTICULAR PURPOSE AND NONINFRINGEMENT. IN NO EVENT SHALL THE
AUTHORS OR COPYRIGHT HOLDERS BE LIABLE FOR ANY CLAIM, DAMAGES OR OTHER
LIABILITY, WHETHER IN AN ACTION OF CONTRACT, TORT OR OTHERWISE, ARISING FROM,
OUT OF OR IN CONNECTION WITH THE SOFTWARE OR THE USE OR OTHER DEALINGS IN THE
SOFTWARE.
"#

/-- The textual form a `pages_url` value takes inside an f-string. -/
def pageValText : PageVal → String
  | .str s => s
  | .bool b => if b then "True" else "False"

/-- `AppBuilder.create_readme`: the generated README text. -/
def create_readme (task brief : String) (round_num : Nat)
    (repo_url pages_url nowStr : String) : String :=
  "# App Builder - Task " ++ task ++ "\n\n## Overview\n" ++
  "This application was automatically generated for task " ++ task ++
  ", round " ++ toString round_num ++ ".\n\n**Brief:** " ++ brief ++
  "\n\n## Live Demo\n🌐 [View Live Application](" ++ pages_url ++
  ")\n\n## Repository\n📁 [GitHub Repository](" ++ repo_url ++ ")\n\n" ++
  r#"## Features
- Responsive design with Bootstrap 5
- Modern web technologies
- Clean and maintainable code
- Ready for production deployment

## Setup
1. Clone the repository
2. Open `index.html` in a web browser
3. Or visit the GitHub Pages URL above

## Code Structure
- `index.html` - Main application file with embedded CSS and JavaScript
- `LICENSE` - MIT License
- `README.md` - This file

## Technical Details
- **Framework:** Vanilla HTML/CSS/JavaScript
- **Styling:** Bootstrap 5 (CDN)
- **Deployment:** GitHub Pages
- **Generated:** "# ++ nowStr ++ r#"

## License
This project is licensed under the MIT License - see the [LICENSE](LICENSE) file for details.

---
*This application was automatically generated by the App Builder System.*
"#

/-- Assignment `files[name] = content` on the ordered Python dict: replaces
the value in place when the key exists, appends otherwise. -/
def dictInsert (l : List (String × Content)) (k : String) (v : Content) :
    List (String × Content) :=
  if l.any fun p => p.1 == k then
    l.map fun p => if p.1 == k then (k, v) else p
  else l ++ [(k, v)]

/-- The attachment loop shared by all build paths: each processed
attachment's bytes are read back from disk; text-typed content
(`mime_type.startswith('text/')` or a `.json` name) is UTF-8-decoded into a
`str` (a decode error is caught and the attachment skipped), anything else
stays `bytes`. -/
def addAttachmentFiles (files : List (String × Content)) :
    List ProcessedFile → List (String × Content)
  | [] => files
  | a :: rest =>
    let files :=
      if strStartsWith a.mime_type "text/" || strEndsWith a.name ".json" then
        match utf8Decode a.content with
        | some s => dictInsert files a.name (.str s)
        | none => files
      else dictInsert files a.name (.bytes a.content)
    addAttachmentFiles files rest

/-- `AppBuilder._handle_round1`: delete any stale `(task, 1)` rows, store the
new request, generate, create the repository, publish, store the generation
record, notify.  Failures of repository creation or publish return `False`
before any notification. -/
def handle_round1 (env : Env) (db : DB) (req : BuildRequest) : RunResult :=
  let db := if hasExactRound1 db req.task then deleteRound1 db req.task else db
  match insertAppRequest db (reqToAppRequest req req.round) with
  | none => failRes db .round1
  | some db =>
    let processed := process_attachments req.attachments
    let generated := generate_code_with_ai env.genOutcome
    if generated = "" then failRes db .round1
    else
      match env.createRepo with
      | none => failRes db .round1
      | some repo =>
        let pages_url := get_pages_url env.username repo.name
        let files := [("index.html", Content.str generated),
                      ("LICENSE", Content.str (create_mit_license env.year env.username)),
                      ("README.md", Content.str (create_readme req.task req.brief req.round
                        repo.html_url pages_url env.nowStr))]
        let files := addAttachmentFiles files processed
        let cw := commit_and_push env.fileWriteOk env.latestSha files
        match cw.1 with
        | none =>
          { db := db, notified := [], ok := false, path := .round1,
            reviseAttempted := false, publishedFiles := files, providerWrites := cw.2 }
        | some sha =>
          let db := insertLLMResponse db
            { task := req.task, round_num := req.round, generated_code := generated,
              repo_url := repo.html_url, pages_url := .str pages_url, commit_sha := sha }
          let payload : Payload :=
            { email := req.email, task := req.task, round := req.round, nonce := req.nonce,
              repo_url := repo.html_url, commit_sha := sha, pages_url := .str pages_url }
          { db := db, notified := [(req.evaluation_url, payload)], ok := true,
            path := .round1, reviseAttempted := false,
            publishedFiles := files, providerWrites := cw.2 }

/-- `AppBuilder._handle_round2`: requires the round-1 rows, stores the
round-2 request, generates from the combined brief, updates the round-1
repository (URLs carried over unchanged), stores the generation record,
notifies. -/
def handle_round2 (env : Env) (db : DB) (req : BuildRequest) : RunResult :=
  match findRound1Request db req.task, findRound1Response db req.task with
  | some round1_request, some round1_response =>
    match insertAppRequest db (reqToAppRequest req req.round) with
    | none => failRes db .round2Normal
    | some db =>
      let combined_brief :=
        "\nORIGINAL REQUEST (Round 1):\n" ++ round1_request.brief ++
        "\n\nREVISION REQUEST (Round 2):\n" ++ req.brief ++
        "\n\nPlease update the existing application to include the new requirements while maintaining all existing functionality.\n"
      let _combined_checks := round1_request.checks ++ req.checks
      let processed := process_attachments req.attachments
      let generated := generate_code_with_ai env.genOutcome
      if generated = "" then failRes db .round2Normal
      else
        let repo_url := round1_response.repo_url
        let pages_url := round1_response.pages_url
        let files := [("index.html", Content.str generated),
                      ("README.md", Content.str (create_readme req.task combined_brief
                        req.round repo_url (pageValText pages_url) env.nowStr))]
        let files := addAttachmentFiles files processed
        let cw := update_existing_repo env.updateRepoFetchOk env.fileWriteOk
          env.commitsSha files
        match cw.1 with
        | none =>
          { db := db, notified := [], ok := false, path := .round2Normal,
            reviseAttempted := false, publishedFiles := files, providerWrites := cw.2 }
        | some sha =>
          if env.getRepo2Ok then
            let db := insertLLMResponse db
              { task := req.task, round_num := req.round, generated_code := generated,
                repo_url := repo_url, pages_url := pages_url, commit_sha := sha }
            let payload : Payload :=
              { email := req.email, task := req.task, round := req.round,
                nonce := req.nonce, repo_url := repo_url, commit_sha := sha,
                pages_url := pages_url }
            { db := db, notified := [(req.evaluation_url, payload)], ok := true,
              path := .round2Normal, reviseAttempted := false,
              publishedFiles := files, providerWrites := cw.2 }
          else
            { db := db, notified := [], ok := false, path := .round2Normal,
              reviseAttempted := false, publishedFiles := files, providerWrites := cw.2 }
  | _, _ => failRes db .round2Normal

/-- `AppBuilder._handle_round2_with_fallback`.  When both round-1 rows exist
the normal round-2 handler runs.  Otherwise the code looks for a repository
named `app-{task}`; if one is found it *attempts* the revise call, but that
call references the local `processed_attachments` before assignment, so it
raises `UnboundLocalError`, which the surrounding
`except Exception` ("Error finding existing repository") catches — control
then falls through to the create-new-repository fallback exactly as when no
repository was found.  `reviseAttempted` records that the crashed attempt
happened.  The fallback stores the request and the generation record with
round `1` and reports `round: 1`; note that here `pages_url` is assigned the
*boolean* result of `enable_github_pages`, and a `False` aborts. -/
def handle_round2_with_fallback (env : Env) (db : DB) (req : BuildRequest) : RunResult :=
  match findRound1Request db req.task, findRound1Response db req.task with
  | some _, some _ => handle_round2 env db req
  | _, _ =>
    let reviseAttempted := env.getRepo.isSome
    match insertAppRequest db (reqToAppRequest req 1) with
    | none => failRes db .fallbackCreate reviseAttempted
    | some db =>
      let processed := process_attachments req.attachments
      let generated := generate_code_with_ai env.genOutcome
      if generated = "" then failRes db .fallbackCreate reviseAttempted
      else
        match env.createRepo with
        | none => failRes db .fallbackCreate reviseAttempted
        | some repo =>
          let files := [("index.html", Content.str generated),
                        ("LICENSE", Content.str (create_mit_license env.year env.username)),
                        ("README.md", Content.str (create_readme req.task req.brief 1
                          repo.html_url
                          ("https://" ++ env.username ++ ".github.io/" ++ repo.name ++ "/")
                          env.nowStr))]
          let files := addAttachmentFiles files processed
          let cw := commit_and_push env.fileWriteOk env.latestSha files
          match cw.1 with
          | none =>
            { db := db, notified := [], ok := false, path := .fallbackCreate,
              reviseAttempted := reviseAttempted,
              publishedFiles := files, providerWrites := cw.2 }
          | some sha =>
            if env.pagesOk then
              let db := insertLLMResponse db
                { task := req.task, round_num := 1, generated_code := generated,
                  repo_url := repo.html_url, pages_url := .bool true, commit_sha := sha }
              let payload : Payload :=
                { email := req.email, task := req.task, round := 1, nonce := req.nonce,
                  repo_url := repo.html_url, commit_sha := sha, pages_url := .bool true }
              { db := db, notified := [(req.evaluation_url, payload)], ok := true,
                path := .fallbackCreate, reviseAttempted := reviseAttempted,
                publishedFiles := files, providerWrites := cw.2 }
            else
              { db := db, notified := [], ok := false, path := .fallbackCreate,
                reviseAttempted := reviseAttempted,
                publishedFiles := files, providerWrites := cw.2 }

/-- `AppBuilder.build_app`: round dispatch (`round == 1` goes to the round-1
handler, anything else to the round-2 handler with fallback). -/
def build_app (env : Env) (db : DB) (req : BuildRequest) : RunResult :=
  if req.round = 1 then handle_round1 env db req
  else handle_round2_with_fallback env db req

end AppBuilder

namespace AppBuilder

/-! ## General lemmas about the embedding -/

/-- `generate_code_with_ai` never returns the empty string: an empty or
missing provider result is replaced by the (non-empty) fallback page. -/
theorem generate_code_with_ai_ne_empty (api : Except Unit (Option String)) :
    generate_code_with_ai api ≠ "" := by
  unfold generate_code_with_ai
  have hfb : fallbackCalculator ≠ "" := by decide
  cases api with
  | error e => simpa [aipipe_generate_code] using hfb
  | ok o =>
    cases o with
    | none => simpa [aipipe_generate_code] using hfb
    | some raw =>
      simp only [aipipe_generate_code]
      by_cases h : cleanGeneratedCode raw = "" <;> simp [h, hfb]

/-- `generate_code_with_ai` returns either the cleaned provider output (for
a 200 response with non-empty cleaned text) or the fallback page. -/
theorem generate_code_with_ai_cases (api : Except Unit (Option String)) :
    generate_code_with_ai api = fallbackCalculator ∨
      ∃ raw, api = .ok (some raw) ∧
        generate_code_with_ai api = cleanGeneratedCode raw := by
  unfold generate_code_with_ai
  cases api with
  | error e => simp [aipipe_generate_code]
  | ok o =>
    cases o with
    | none => simp [aipipe_generate_code]
    | some raw =>
      simp only [aipipe_generate_code]
      by_cases h : cleanGeneratedCode raw = "" <;> simp [h]

/-! ## C6: notifier lemmas -/

/-- If every attempt in the window fails, the loop exhausts its `r + 1`
iterations, sleeping `2 ^ attempt` after each non-final failure. -/
theorem notifyAux_exhaust (oc : Nat → Bool) :
    ∀ (r attempt : Nat), (∀ j, attempt ≤ j → j < attempt + (r + 1) → oc j = false) →
      notifyAux oc attempt (r + 1) =
        ⟨false, (List.range r).map fun i => 2 ^ (attempt + i), attempt + (r + 1)⟩
  | 0, attempt, h => by
      have h0 : oc attempt = false := h attempt le_rfl (by omega)
      simp [notifyAux, h0]
  | r + 1, attempt, h => by
      have h0 : oc attempt = false := h attempt le_rfl (by omega)
      have ih := notifyAux_exhaust oc r (attempt + 1)
        (fun j hj1 hj2 => h j (by omega) (by omega))
      have hfun : (fun i => (2 : Nat) ^ (attempt + Nat.succ i)) =
          fun i => 2 ^ (attempt + 1 + i) := by
        funext i; congr 1; omega
      simp only [notifyAux, h0, Bool.false_eq_true, if_false, ih,
        List.range_succ_eq_map, List.map_cons, List.map_map]
      refine congrArg₂ (NotifyTrace.mk false) ?_ (by omega)
      simp [Function.comp_def, hfun]

/-- If the first success is at offset `k` within the window, the loop stops
there with result `true`, having slept after each of the `k` failures. -/
theorem notifyAux_success (oc : Nat → Bool) :
    ∀ (k attempt rem : Nat), k + 1 ≤ rem →
      (∀ j, attempt ≤ j → j < attempt + k → oc j = false) →
      oc (attempt + k) = true →
      notifyAux oc attempt rem =
        ⟨true, (List.range k).map fun i => 2 ^ (attempt + i), attempt + (k + 1)⟩
  | 0, attempt, rem, hrem, _, hsucc => by
      have h0 : oc attempt = true := by simpa using hsucc
      obtain ⟨r, rfl⟩ : ∃ r, rem = r + 1 := ⟨rem - 1, by omega⟩
      cases r with
      | zero => simp [notifyAux, h0]
      | succ r => simp [notifyAux, h0]
  | k + 1, attempt, rem, hrem, hfail, hsucc => by
      have h0 : oc attempt = false := hfail attempt le_rfl (by omega)
      obtain ⟨r, rfl⟩ : ∃ r, rem = r + 2 := ⟨rem - 2, by omega⟩
      have ih := notifyAux_success oc k (attempt + 1) (r + 1) (by omega)
        (fun j hj1 hj2 => hfail j (by omega) (by omega))
        (by have : attempt + 1 + k = attempt + (k + 1) := by omega
            rw [this]; exact hsucc)
      have hfun : (fun i => (2 : Nat) ^ (attempt + Nat.succ i)) =
          fun i => 2 ^ (attempt + 1 + i) := by
        funext i; congr 1; omega
      simp only [notifyAux, h0, Bool.false_eq_true, if_false, ih,
        List.range_succ_eq_map, List.map_cons, List.map_map]
      refine congrArg₂ (NotifyTrace.mk true) ?_ (by omega)
      simp [Function.comp_def, hfun]

/-- C6: for every outcome sequence and every `max_retries = N ≥ 1`, the
notifier returns `true` at the first attempt `k ≤ N` that receives HTTP 200,
making exactly `k` attempts and sleeping `1, 2, 4, …, 2^(k-2)` seconds after
the failed attempts before it; and if all `N` attempts fail it makes exactly
`N` attempts, sleeps `1, 2, 4, …, 2^(N-2)` seconds between them, and returns
`false`.  The function is total — the catch-all handlers mean no exception
escapes. -/
theorem notify_evaluation_spec (oc : Nat → Bool) (N : Nat) (hN : 1 ≤ N) :
    (∀ k, 1 ≤ k → k ≤ N → (∀ j, j < k - 1 → oc j = false) → oc (k - 1) = true →
      notify_evaluation oc N = ⟨true, (List.range (k - 1)).map fun i => 2 ^ i, k⟩) ∧
    ((∀ j, j < N → oc j = false) →
      notify_evaluation oc N = ⟨false, (List.range (N - 1)).map fun i => 2 ^ i, N⟩) := by
  constructor
  · intro k hk1 hkN hfail hsucc
    obtain ⟨m, rfl⟩ : ∃ m, k = m + 1 := ⟨k - 1, by omega⟩
    have := notifyAux_success oc m 0 N (by omega)
      (fun j _ hj => hfail j (by omega))
      (by simpa using hsucc)
    simpa [notify_evaluation] using this
  · intro hfail
    obtain ⟨r, rfl⟩ : ∃ r, N = r + 1 := ⟨N - 1, by omega⟩
    have := notifyAux_exhaust oc r 0 (fun j _ hj => hfail j (by omega))
    simpa [notify_evaluation] using this

/-- Witness for C6 at a concrete input: five allowed attempts, success on
attempt 2, so one sleep of one second and two attempts; and the all-fail
variant with five attempts and sleeps `1, 2, 4, 8`. -/
theorem notify_evaluation_spec_witness :
    1 ≤ 5 ∧
      notify_evaluation (fun j => j == 1) 5 = ⟨true, [1], 2⟩ ∧
      notify_evaluation (fun _ => false) 5 = ⟨false, [1, 2, 4, 8], 5⟩ := by
  refine ⟨by decide, ?_, ?_⟩
  · have h := (notify_evaluation_spec (fun j => j == 1) 5 (by decide)).1 2
      (by decide) (by decide) (by decide) (by decide)
    simpa using h
  · have h := (notify_evaluation_spec (fun _ => false) 5 (by decide)).2
      (fun j _ => rfl)
    simpa using h

end AppBuilder

namespace AppBuilder

/-! ## C8: partial file-write failure during publish -/

/-- Concrete two-file publish for C8: the first write succeeds, the second
fails. -/
def c8files : List (String × Content) := [("a.txt", .str "x"), ("b.txt", .str "y")]

/-- Per-path write outcome for C8. -/
def c8ok : String → Bool := fun p => p == "a.txt"

/-- C8 counterexample: a publish in which one file write succeeds and one
fails, while the revision-identifier fetch succeeds, still returns no
revision identifier — the run aborts on the per-file failure alone,
contradicting the claim that it aborts only if the fetch also fails. -/
theorem c8_counterexample :
    c8ok "a.txt" = true ∧ c8ok "b.txt" = false ∧
      (some "sha1" : Option String).isSome = true ∧
      (update_existing_repo true c8ok (some "sha1") c8files).1 = none ∧
      (commit_and_push c8ok (some "sha1") c8files).1 = none := by
  decide

/-- C8 amended: per-file failures do not stop the remaining writes (every
path in the file set is still handed to the provider), but any single failed
write makes both publish operations return no revision identifier —
aborting the run — regardless of whether the revision-identifier fetch
succeeds. -/
theorem c8_amended (fileOk : String → Bool) (sha : Option String) (repoFetchOk : Bool)
    (files : List (String × Content)) (h : ∃ p ∈ files, fileOk p.1 = false) :
    (update_existing_repo repoFetchOk fileOk sha files).1 = none ∧
    (update_existing_repo true fileOk sha files).2.map Prod.fst = files.map Prod.fst ∧
    (commit_and_push fileOk sha files).1 = none ∧
    (commit_and_push fileOk sha files).2.map Prod.fst = files.map Prod.fst := by
  have hall : (files.all fun p => fileOk p.1) = false := by
    rw [List.all_eq_false]
    obtain ⟨p, hp, hfp⟩ := h
    exact ⟨p, hp, by simp [hfp]⟩
  refine ⟨?_, ?_, ?_, ?_⟩
  · cases repoFetchOk <;> simp [update_existing_repo, hall]
  · simp [update_existing_repo, List.map_map, Function.comp_def]
  · simp [commit_and_push, hall]
  · simp [commit_and_push, hall, List.map_map, Function.comp_def]

/-- Witness for C8 amended at the concrete two-file publish. -/
theorem c8_amended_witness :
    (∃ p ∈ c8files, c8ok p.1 = false) ∧
      (update_existing_repo true c8ok (some "sha1") c8files).1 = none := by
  refine ⟨by decide, ?_⟩
  exact (c8_amended c8ok (some "sha1") true c8files (by decide)).1

/-! ## C9: attachments that are not data URIs -/

/-- C9: an attachment whose `url` does not begin with `data:` is silently
omitted by the resolver — `_process_single_attachment` returns `None`
without raising, the processed list is as if the attachment were absent, and
consequently the published file set is unchanged by its presence. -/
theorem c9_non_data_uri_skipped (a : Att) (h : strStartsWith a.url "data:" = false) :
    process_single_attachment a = none ∧
    (∀ l1 l2 : List Att,
      process_attachments (l1 ++ a :: l2) = process_attachments (l1 ++ l2)) ∧
    (∀ (files : List (String × Content)) (l1 l2 : List Att),
      addAttachmentFiles files (process_attachments (l1 ++ a :: l2)) =
        addAttachmentFiles files (process_attachments (l1 ++ l2))) := by
  have hnone : process_single_attachment a = none := by
    unfold process_single_attachment
    simp [h]
  have hlist : ∀ l1 l2 : List Att,
      process_attachments (l1 ++ a :: l2) = process_attachments (l1 ++ l2) := by
    intro l1 l2
    induction l1 with
    | nil => simp [process_attachments, hnone]
    | cons b t ih =>
      simp only [List.cons_append, process_attachments, List.append_eq]
      rw [ih]
  exact ⟨hnone, hlist, fun files l1 l2 => by rw [hlist]⟩

/-- Concrete non-data-URI attachment for the C9 witness. -/
def c9att : Att := { name := "logo.png", url := "https://example.com/logo.png" }

/-- A well-formed data-URI attachment accompanying it. -/
def c9dataAtt : Att := { name := "hello.bin", url := "data:application/octet-stream;base64,aGVsbG8=" }

/-- Witness for C9 at a concrete input: the `https:` attachment contributes
nothing even when surrounded by a processable attachment. -/
theorem c9_non_data_uri_skipped_witness :
    strStartsWith c9att.url "data:" = false ∧
      process_single_attachment c9att = none ∧
      process_attachments ([c9dataAtt] ++ c9att :: []) =
        process_attachments ([c9dataAtt] ++ []) := by
  refine ⟨by decide, ?_, ?_⟩
  · exact (c9_non_data_uri_skipped c9att (by decide)).1
  · exact (c9_non_data_uri_skipped c9att (by decide)).2.1 [c9dataAtt] []

end AppBuilder

namespace AppBuilder

/-! ## Lemmas about the file dictionary -/

/-- `List.lookup` unfolded over a cons cell. -/
theorem lookup_cons (k : String) (x : String × Content) (l : List (String × Content)) :
    List.lookup k (x :: l) = bif k == x.1 then some x.2 else List.lookup k l := rfl

/-- Looking up the key just assigned by `dictInsert` yields the new value. -/
theorem lookup_dictInsert_self (k : String) (v : Content) :
    ∀ l : List (String × Content), List.lookup k (dictInsert l k v) = some v := by
  intro l
  unfold dictInsert
  by_cases hany : (l.any fun p => p.1 == k) = true
  · rw [if_pos hany]
    induction l with
    | nil => simp at hany
    | cons p t ih =>
      by_cases hp : p.1 = k
      · simp [lookup_cons, hp]
      · have hb : (p.1 == k) = false := beq_eq_false_iff_ne.mpr hp
        have hbk : (k == p.1) = false := beq_eq_false_iff_ne.mpr fun he => hp he.symm
        simp only [List.any_cons, hb, Bool.false_or] at hany
        have ih' := ih hany
        simp only [beq_iff_eq] at ih'
        simp [lookup_cons, hp, hb, hbk, ih']
  · rw [if_neg hany]
    rw [Bool.not_eq_true, List.any_eq_false] at hany
    induction l with
    | nil => simp [lookup_cons]
    | cons p t ih =>
      have hp : ¬ p.1 = k := by
        have := hany p (by simp)
        simpa using this
      have hbk : (k == p.1) = false := beq_eq_false_iff_ne.mpr fun he => hp he.symm
      have ht : ∀ x ∈ t, ¬(x.1 == k) = true := fun x hx => hany x (by simp [hx])
      simp [lookup_cons, hbk, ih ht]

/-- Assigning a different key leaves a lookup unchanged. -/
theorem lookup_dictInsert_ne (k k' : String) (v : Content) (h : ¬ k = k') :
    ∀ l : List (String × Content), List.lookup k (dictInsert l k' v) = List.lookup k l := by
  intro l
  have hkk : (k == k') = false := beq_eq_false_iff_ne.mpr h
  unfold dictInsert
  by_cases hany : (l.any fun p => p.1 == k') = true
  · rw [if_pos hany]
    clear hany
    induction l with
    | nil => simp
    | cons p t ih =>
      simp only [beq_iff_eq] at ih
      by_cases hp : p.1 = k'
      · simp [lookup_cons, hp, hkk, ih]
      · have hb : (p.1 == k') = false := beq_eq_false_iff_ne.mpr hp
        cases hkb : k == p.1 <;> simp [lookup_cons, hp, hb, hkb, ih]
  · rw [if_neg hany]
    induction l with
    | nil => simp [lookup_cons, hkk]
    | cons p t ih =>
      have ht : List.lookup k (t ++ [(k', v)]) = List.lookup k t :=
        ih fun hc => hany (by simp [List.any_cons, hc])
      cases hkb : k == p.1 <;> simp [lookup_cons, hkb, ht]

/-- Attachments whose names avoid `key` do not disturb a lookup of `key`. -/
theorem lookup_addAttachmentFiles_of_not_mem (key : String) :
    ∀ (procs : List ProcessedFile) (files : List (String × Content)),
      (∀ a ∈ procs, ¬ a.name = key) →
      List.lookup key (addAttachmentFiles files procs) = List.lookup key files := by
  intro procs
  induction procs with
  | nil => intro files _; rfl
  | cons a rest ih =>
    intro files hne
    have hak : ¬ key = a.name := fun he => hne a (by simp) he.symm
    have hrest : ∀ x ∈ rest, ¬ x.name = key := fun x hx => hne x (by simp [hx])
    simp only [addAttachmentFiles]
    by_cases hc : (strStartsWith a.mime_type "text/" || strEndsWith a.name ".json") = true
    · rw [if_pos hc]
      cases hu : utf8Decode a.content with
      | some s => rw [ih _ hrest, lookup_dictInsert_ne key a.name _ hak]
      | none => rw [ih _ hrest]
    · rw [if_neg hc, ih _ hrest, lookup_dictInsert_ne key a.name _ hak]

/-- A resolved attachment of non-text type whose name is not shadowed by a
later attachment ends up in the file dictionary as its raw bytes. -/
theorem lookup_addAttachmentFiles_of_bin (a : ProcessedFile) :
    ∀ (procs : List ProcessedFile) (files : List (String × Content)),
      a ∈ procs → (procs.map (·.name)).Nodup →
      (strStartsWith a.mime_type "text/" || strEndsWith a.name ".json") = false →
      List.lookup a.name (addAttachmentFiles files procs) = some (.bytes a.content) := by
  intro procs
  induction procs with
  | nil => intro files hmem; simp at hmem
  | cons b rest ih =>
    intro files hmem hnd hbin
    simp only [List.map_cons, List.nodup_cons] at hnd
    rcases List.mem_cons.mp hmem with rfl | hmem'
    · have hrest : ∀ x ∈ rest, ¬ x.name = a.name := by
        intro x hx he
        exact hnd.1 (he ▸ List.mem_map_of_mem (·.name) hx)
      simp only [addAttachmentFiles, hbin, Bool.false_eq_true, if_false]
      rw [lookup_addAttachmentFiles_of_not_mem a.name rest _ hrest,
        lookup_dictInsert_self]
    · simp only [addAttachmentFiles]
      by_cases hc : (strStartsWith b.mime_type "text/" || strEndsWith b.name ".json") = true
      · rw [if_pos hc]
        cases hu : utf8Decode b.content with
        | some s => exact ih _ hmem' hnd.2 hbin
        | none => exact ih _ hmem' hnd.2 hbin
      · rw [if_neg hc]
        exact ih _ hmem' hnd.2 hbin

/-- A successful lookup pinpoints a member of the association list. -/
theorem mem_of_lookup_content {l : List (String × Content)} {k : String} {v : Content}
    (h : List.lookup k l = some v) : (k, v) ∈ l := by
  obtain ⟨l₁, l₂, rfl, -⟩ := List.lookup_eq_some_iff.mp h
  simp

end AppBuilder

namespace AppBuilder

/-! ## Round-1 store lemmas -/

/-- Inserting with no conflicting `(task, round)` key succeeds and appends. -/
theorem insertAppRequest_of_no_dup (db : DB) (r : AppRequest)
    (h : (db.appRequests.any fun x => x.task == r.task && x.round_num == r.round_num) = false) :
    insertAppRequest db r = some { db with appRequests := db.appRequests ++ [r] } := by
  unfold insertAppRequest
  simp [h]

/-- After the conditional round-1 cleanup of `_handle_round1`, no `(task, 1)`
row remains, so the subsequent insert cannot hit the unique constraint. -/
theorem round1_pre_no_dup (db : DB) (task : String) :
    (((if hasExactRound1 db task then deleteRound1 db task else db).appRequests.any
      fun x => x.task == task && x.round_num == 1) = false) := by
  by_cases h : hasExactRound1 db task = true
  · rw [if_pos h]
    rw [List.any_eq_false]
    intro x hx
    have hx' : x ∈ db.appRequests.filter
        (fun r => !(r.task == task && r.round_num == 1)) := hx
    have hxf : (!(x.task == task && x.round_num == 1)) = true := (List.mem_filter.mp hx').2
    rw [Bool.not_eq_true'] at hxf
    simp [hxf]
  · rw [if_neg h]
    rw [Bool.not_eq_true] at h
    unfold hasExactRound1 at h
    simpa using h

/-- Shape of the store after a round-1 run: the (possibly cleaned-up)
previous rows, the new `BuildRecord` appended to the requests, and at most
one new `GenerationRecord` appended to the responses. -/
theorem handle_round1_db (env : Env) (db : DB) (req : BuildRequest) (h : req.round = 1) :
    ∃ tail : List LLMResponse,
      (handle_round1 env db req).db.appRequests =
        (if hasExactRound1 db req.task then deleteRound1 db req.task else db).appRequests
          ++ [reqToAppRequest req req.round] ∧
      (handle_round1 env db req).db.llmResponses =
        (if hasExactRound1 db req.task then deleteRound1 db req.task else db).llmResponses
          ++ tail ∧
      tail.length ≤ 1 := by
  unfold handle_round1
  have hins := insertAppRequest_of_no_dup
    (if hasExactRound1 db req.task then deleteRound1 db req.task else db)
    (reqToAppRequest req req.round)
    (by
      have : (reqToAppRequest req req.round).task = req.task := rfl
      rw [this]
      have hr : (reqToAppRequest req req.round).round_num = 1 := by simp [reqToAppRequest, h]
      rw [hr]
      exact round1_pre_no_dup db req.task)
  simp only [hins]
  rw [if_neg (generate_code_with_ai_ne_empty env.genOutcome)]
  split
  · exact ⟨[], rfl, by simp [failRes], by simp⟩
  · split
    · exact ⟨[], rfl, by simp, by simp⟩
    · exact ⟨[_], rfl, rfl, by simp⟩

/-- The `(task, 1)` request rows after a round-1 run are exactly the one just
inserted. -/
theorem handle_round1_filter (env : Env) (db : DB) (req : BuildRequest) (h : req.round = 1) :
    (handle_round1 env db req).db.appRequests.filter
        (fun r => r.task == req.task && r.round_num == 1) = [reqToAppRequest req 1] := by
  obtain ⟨tail, happ, -, -⟩ := handle_round1_db env db req h
  rw [happ, List.filter_append]
  have hpre : ((if hasExactRound1 db req.task then deleteRound1 db req.task
      else db).appRequests.filter fun r => r.task == req.task && r.round_num == 1) = [] := by
    rw [List.filter_eq_nil_iff]
    intro x hx
    have := round1_pre_no_dup db req.task
    rw [List.any_eq_false] at this
    exact this x hx
  rw [hpre, h]
  simp [reqToAppRequest]

/-- The `(task, 1)` response rows after a round-1 run that began with an
existing `(task, 1)` request row: the cleanup removed all old ones, so at
most the run's own new row remains. -/
theorem handle_round1_llm_filter (env : Env) (db : DB) (req : BuildRequest)
    (h : req.round = 1) (hprev : hasExactRound1 db req.task = true) :
    ((handle_round1 env db req).db.llmResponses.filter
        fun r => r.task == req.task && r.round_num == 1).length ≤ 1 := by
  obtain ⟨tail, -, hllm, htail⟩ := handle_round1_db env db req h
  rw [hllm, List.filter_append]
  have hpre : ((if hasExactRound1 db req.task then deleteRound1 db req.task
      else db).llmResponses.filter fun r => r.task == req.task && r.round_num == 1) = [] := by
    rw [if_pos hprev]
    rw [show (deleteRound1 db req.task).llmResponses =
      db.llmResponses.filter (fun r => !(r.task == req.task && r.round_num == 1)) from rfl]
    rw [List.filter_filter, List.filter_eq_nil_iff]
    intro x hx
    simp
  rw [hpre, List.nil_append]
  exact le_trans (List.length_filter_le _ tail) htail

/-- A round-1 run leaves behind an exact `(task, 1)` request row, so a later
run sees `hasExactRound1`. -/
theorem hasExactRound1_after_round1 (env : Env) (db : DB) (req : BuildRequest)
    (h : req.round = 1) :
    hasExactRound1 (handle_round1 env db req).db req.task = true := by
  obtain ⟨tail, happ, -, -⟩ := handle_round1_db env db req h
  unfold hasExactRound1
  rw [happ, List.any_append]
  simp [reqToAppRequest, h]

/-! ## C2: round-1 resubmission idempotency -/

/-- C2: for every task, after two round-1 submissions the store holds exactly
one live round-1 `BuildRecord` for the task, carrying the second submission's
brief (the second run deleted the prior `(T, 1)` rows before inserting), and
at most one round-1 `GenerationRecord`. -/
theorem c2_round1_resubmission (env1 env2 : Env) (db : DB) (req1 req2 : BuildRequest)
    (h1 : req1.round = 1) (h2 : req2.round = 1) (ht : req1.task = req2.task) :
    (((build_app env2 (build_app env1 db req1).db req2).db.appRequests.filter
        fun r => r.task == req2.task && r.round_num == 1).map (·.brief)) = [req2.brief] ∧
    ((build_app env2 (build_app env1 db req1).db req2).db.llmResponses.filter
        fun r => r.task == req2.task && r.round_num == 1).length ≤ 1 := by
  have hb1 : build_app env1 db req1 = handle_round1 env1 db req1 := by
    unfold build_app; rw [if_pos h1]
  have hb2 : build_app env2 (build_app env1 db req1).db req2 =
      handle_round1 env2 (build_app env1 db req1).db req2 := by
    unfold build_app; rw [if_pos h2]
  constructor
  · rw [hb2, handle_round1_filter env2 _ req2 h2]
    simp [reqToAppRequest]
  · rw [hb2]
    refine handle_round1_llm_filter env2 _ req2 h2 ?_
    rw [hb1]
    have := hasExactRound1_after_round1 env1 db req1 h1
    rwa [ht] at this

/-- Concrete inputs for the C2 witness. -/
def c2req1 : BuildRequest :=
  { email := "a@b", task := "t2", round := 1, nonce := "n1", brief := "first brief",
    checks := [], evaluation_url := "https://eval", attachments := [], secret := "s" }

/-- Second round-1 submission for the same task with a different brief. -/
def c2req2 : BuildRequest := { c2req1 with nonce := "n2", brief := "second brief" }

/-- An all-success oracle used by several witnesses. -/
def envOk : Env :=
  { username := "u", year := 2025, nowStr := "2025-01-01 00:00:00 UTC",
    genOutcome := .ok (some "<p>app</p>"),
    createRepo := some { name := "app-t2", html_url := "https://github.com/u/app-t2" },
    getRepo := none, getRepo2Ok := true,
    fileWriteOk := fun _ => true, latestSha := some "sha1",
    updateRepoFetchOk := true, commitsSha := some "sha2", pagesOk := true }

/-- Witness for C2 at a concrete input: resubmitting round 1 leaves exactly
one `(t2, 1)` request row with the second brief. -/
theorem c2_round1_resubmission_witness :
    c2req1.round = 1 ∧ c2req2.round = 1 ∧ c2req1.task = c2req2.task ∧
      (((build_app envOk (build_app envOk ⟨[], []⟩ c2req1).db c2req2).db.appRequests.filter
          fun r => r.task == c2req2.task && r.round_num == 1).map (·.brief)) =
        ["second brief"] := by
  refine ⟨rfl, rfl, rfl, ?_⟩
  exact (c2_round1_resubmission envOk envOk ⟨[], []⟩ c2req1 c2req2 rfl rfl rfl).1

end AppBuilder

namespace AppBuilder

/-! ## C10: binary attachments are committed as base64 text -/

/-- `commit_and_push` hands every file to the provider's file-creation call,
with the `bytes`-to-base64 conversion of `GitHubManager.create_file`
applied. -/
theorem commit_and_push_writes (f : String → Bool) (sha : Option String)
    (files : List (String × Content)) :
    (commit_and_push f sha files).2 = files.map fun p => (p.1, githubFilePayload p.2) := by
  unfold commit_and_push
  split <;> rfl

/-- In a round-1 run that reached repository creation, the provider file
writes are exactly the final file dictionary mapped through the
`create_file` payload conversion. -/
theorem handle_round1_providerWrites (env : Env) (db : DB) (req : BuildRequest)
    (repo : Repo) (h : req.round = 1) (hc : env.createRepo = some repo) :
    (handle_round1 env db req).providerWrites =
      (addAttachmentFiles
        [("index.html", Content.str (generate_code_with_ai env.genOutcome)),
         ("LICENSE", Content.str (create_mit_license env.year env.username)),
         ("README.md", Content.str (create_readme req.task req.brief req.round repo.html_url
           (get_pages_url env.username repo.name) env.nowStr))]
        (process_attachments req.attachments)).map
          (fun p => (p.1, githubFilePayload p.2)) := by
  unfold handle_round1
  have hins := insertAppRequest_of_no_dup
    (if hasExactRound1 db req.task then deleteRound1 db req.task else db)
    (reqToAppRequest req req.round)
    (by
      have hr : (reqToAppRequest req req.round).round_num = 1 := by simp [reqToAppRequest, h]
      rw [show (reqToAppRequest req req.round).task = req.task from rfl, hr]
      exact round1_pre_no_dup db req.task)
  simp only [hins]
  rw [if_neg (generate_code_with_ai_ne_empty env.genOutcome)]
  simp only [hc]
  split
  · rw [commit_and_push_writes]
  · rw [commit_and_push_writes]

/-- C10: every resolved attachment of non-text MIME type and non-`.json`
name (unshadowed by a same-named later attachment) reaches the repository
provider's file-creation call as the base64 ASCII string of its raw bytes —
the payload type is `String`, so the bytes themselves are never passed on. -/
theorem c10_binary_attachment_committed_as_base64 (env : Env) (db : DB)
    (req : BuildRequest) (a : ProcessedFile) (repo : Repo)
    (h1 : req.round = 1)
    (hmem : a ∈ process_attachments req.attachments)
    (hnd : ((process_attachments req.attachments).map (·.name)).Nodup)
    (hmime : strStartsWith a.mime_type "text/" = false)
    (hjson : strEndsWith a.name ".json" = false)
    (hc : env.createRepo = some repo) :
    (a.name, b64encode a.content) ∈ (build_app env db req).providerWrites := by
  have hb : build_app env db req = handle_round1 env db req := by
    unfold build_app; rw [if_pos h1]
  rw [hb, handle_round1_providerWrites env db req repo h1 hc]
  have hbin : (strStartsWith a.mime_type "text/" || strEndsWith a.name ".json") = false := by
    rw [hmime, hjson]; rfl
  have hlook := lookup_addAttachmentFiles_of_bin a (process_attachments req.attachments)
    [("index.html", Content.str (generate_code_with_ai env.genOutcome)),
     ("LICENSE", Content.str (create_mit_license env.year env.username)),
     ("README.md", Content.str (create_readme req.task req.brief req.round repo.html_url
       (get_pages_url env.username repo.name) env.nowStr))]
    hmem hnd hbin
  have hmem2 := mem_of_lookup_content hlook
  exact List.mem_map_of_mem _ hmem2

/-- Concrete round-1 request with one binary attachment for the C10
witness. -/
def c10req : BuildRequest :=
  { email := "a@b", task := "t2", round := 1, nonce := "n10", brief := "b",
    checks := [], evaluation_url := "https://eval",
    attachments := [{ name := "hello.bin",
                      url := "data:application/octet-stream;base64,aGVsbG8=" }],
    secret := "s" }

/-- The resolved form of that attachment. -/
def c10att : ProcessedFile :=
  { name := "hello.bin", path := "hello.bin", mime_type := "application/octet-stream",
    size := 5, original_url := "data:application/octet-stream;base64,aGVsbG8=",
    content := [104, 101, 108, 108, 111] }

/-- Witness for C10 at a concrete input: the bytes `hello` are handed to the
provider as the string `aGVsbG8=`. -/
theorem c10_binary_attachment_committed_as_base64_witness :
    c10req.round = 1 ∧ c10att ∈ process_attachments c10req.attachments ∧
      strStartsWith c10att.mime_type "text/" = false ∧
      strEndsWith c10att.name ".json" = false ∧
      ("hello.bin", "aGVsbG8=") ∈ (build_app envOk ⟨[], []⟩ c10req).providerWrites := by
  refine ⟨rfl, by decide, by decide, by decide, ?_⟩
  have h := c10_binary_attachment_committed_as_base64 envOk ⟨[], []⟩ c10req c10att
    { name := "app-t2", html_url := "https://github.com/u/app-t2" }
    rfl (by decide) (by decide) (by decide) (by decide) rfl
  have he : b64encode c10att.content = "aGVsbG8=" := by decide
  rw [show c10att.name = "hello.bin" from rfl, he] at h
  exact h

end AppBuilder

namespace AppBuilder

/-! ## C1: notification count versus run outcome -/

/-- Round-1 runs notify exactly once on success and never on failure. -/
theorem handle_round1_notified (env : Env) (db : DB) (req : BuildRequest) :
    (handle_round1 env db req).notified.length =
      cond (handle_round1 env db req).ok 1 0 := by
  simp only [handle_round1]
  repeat' (first | rfl | split)

/-- Normal round-2 runs notify exactly once on success and never on
failure. -/
theorem handle_round2_notified (env : Env) (db : DB) (req : BuildRequest) :
    (handle_round2 env db req).notified.length =
      cond (handle_round2 env db req).ok 1 0 := by
  simp only [handle_round2]
  repeat' (first | rfl | split)

/-- Fallback round-2 runs notify exactly once on success and never on
failure. -/
theorem handle_round2_with_fallback_notified (env : Env) (db : DB) (req : BuildRequest) :
    (handle_round2_with_fallback env db req).notified.length =
      cond (handle_round2_with_fallback env db req).ok 1 0 := by
  simp only [handle_round2_with_fallback]
  split
  · exact handle_round2_notified env db req
  · repeat' (first | rfl | split)

/-- C1 amended: one `build_app` run performs exactly one notification
attempt sequence when it returns `true` and zero when it returns `false`;
generation failure alone never suppresses the notification (the fallback
page is used instead), but a repository-creation or publish failure returns
`false` before any notification attempt. -/
theorem c1_notification_iff_success (env : Env) (db : DB) (req : BuildRequest) :
    (build_app env db req).notified.length = cond (build_app env db req).ok 1 0 := by
  unfold build_app
  split
  · exact handle_round1_notified env db req
  · exact handle_round2_with_fallback_notified env db req

/-- Oracle for the C1 counterexample: everything succeeds except repository
creation. -/
def c1env : Env := { envOk with createRepo := none }

/-- An accepted round-1 request for the C1 counterexample. -/
def c1req : BuildRequest :=
  { email := "a@b", task := "t1", round := 1, nonce := "n1", brief := "b",
    checks := [], evaluation_url := "https://eval", attachments := [], secret := "s" }

/-- C1 counterexample: an accepted request whose repository creation fails
gets *zero* notification attempt sequences — the claim's "never zero,
regardless of partial failure of earlier steps" is false for the
repository-creation and publish steps. -/
theorem c1_counterexample :
    c1req.round = 1 ∧ (build_app c1env ⟨[], []⟩ c1req).ok = false ∧
      (build_app c1env ⟨[], []⟩ c1req).notified.length = 0 := by
  decide

end AppBuilder

namespace AppBuilder

/-! ## C3: round 2 carries the round-1 URLs forward verbatim -/

/-- C3: a round-2 run whose round-1 rows are found in the store and which
returns `true` stores the round-1 repository URL and serving URL unchanged
in the new `GenerationRecord` and reports exactly those URLs in the
notification payload; only the revision identifier (and the generated text)
is new. -/
theorem c3_round2_reuses_round1_urls (env : Env) (db : DB) (req : BuildRequest)
    (r1req : AppRequest) (r1resp : LLMResponse)
    (hr : req.round = 2)
    (hq : findRound1Request db req.task = some r1req)
    (hp : findRound1Response db req.task = some r1resp)
    (hok : (build_app env db req).ok = true) :
    ∃ sha gen,
      (build_app env db req).db.llmResponses.getLast? =
        some { task := req.task, round_num := req.round, generated_code := gen,
               repo_url := r1resp.repo_url, pages_url := r1resp.pages_url,
               commit_sha := sha } ∧
      (build_app env db req).notified =
        [(req.evaluation_url,
          { email := req.email, task := req.task, round := req.round, nonce := req.nonce,
            repo_url := r1resp.repo_url, commit_sha := sha,
            pages_url := r1resp.pages_url })] := by
  have hb : build_app env db req = handle_round2 env db req := by
    unfold build_app
    rw [if_neg (by omega)]
    simp only [handle_round2_with_fallback, hq, hp]
  rw [hb] at hok ⊢
  revert hok
  simp only [handle_round2, hq, hp]
  cases hI : insertAppRequest db (reqToAppRequest req req.round) with
  | none => intro hok; simp [failRes] at hok
  | some db1 =>
    dsimp only
    rw [if_neg (generate_code_with_ai_ne_empty env.genOutcome)]
    split
    · intro hok
      exact absurd hok (by simp)
    · split
      · intro hok
        rename_i sha heq2 hgr
        refine ⟨sha, generate_code_with_ai env.genOutcome, ?_, rfl⟩
        simp [insertLLMResponse, List.getLast?_concat]
      · intro hok
        exact absurd hok (by simp)

/-- Round-1 history rows used by the C3 witness store. -/
def c3r1req : AppRequest :=
  { email := "a@b", task := "t3", round_num := 1, nonce := "n1", brief := "b1",
    checks := [], evaluation_url := "https://eval", attachments := [], secret := "s" }

/-- The round-1 generation row whose URLs round 2 must reuse. -/
def c3r1resp : LLMResponse :=
  { task := "t3", round_num := 1, generated_code := "<p>v1</p>",
    repo_url := "https://github.com/u/app-t3",
    pages_url := .str "https://u.github.io/app-t3/", commit_sha := "sha0" }

/-- The round-2 request of the C3 witness. -/
def c3req : BuildRequest :=
  { email := "a@b", task := "t3", round := 2, nonce := "n2", brief := "b2",
    checks := [], evaluation_url := "https://eval", attachments := [], secret := "s" }

/-- Witness for C3 at a concrete input: the new generation row and the
payload carry round-1's URLs, with the new commit sha `sha2`. -/
theorem c3_round2_reuses_round1_urls_witness :
    c3req.round = 2 ∧
      findRound1Request ⟨[c3r1req], [c3r1resp]⟩ c3req.task = some c3r1req ∧
      findRound1Response ⟨[c3r1req], [c3r1resp]⟩ c3req.task = some c3r1resp ∧
      (build_app envOk ⟨[c3r1req], [c3r1resp]⟩ c3req).ok = true ∧
      ∃ sha gen,
        (build_app envOk ⟨[c3r1req], [c3r1resp]⟩ c3req).db.llmResponses.getLast? =
          some { task := c3req.task, round_num := c3req.round, generated_code := gen,
                 repo_url := c3r1resp.repo_url, pages_url := c3r1resp.pages_url,
                 commit_sha := sha } ∧
        (build_app envOk ⟨[c3r1req], [c3r1resp]⟩ c3req).notified =
          [(c3req.evaluation_url,
            { email := c3req.email, task := c3req.task, round := c3req.round,
              nonce := c3req.nonce, repo_url := c3r1resp.repo_url, commit_sha := sha,
              pages_url := c3r1resp.pages_url })] := by
  refine ⟨rfl, by decide, by decide, by decide, ?_⟩
  exact c3_round2_reuses_round1_urls envOk ⟨[c3r1req], [c3r1resp]⟩ c3req c3r1req c3r1resp
    rfl (by decide) (by decide) (by decide)

end AppBuilder

namespace AppBuilder

/-! ## C4: round 2 for an unknown task degrades to a recorded round 1 -/

/-- C4: a round-2 run whose task has no round-1 rows in the store and no
`app-{task}` repository at the provider takes the Create fallback: it
persists the `BuildRecord` and the `GenerationRecord` with round `1` and a
successful run reports `round: 1` (with the boolean `pages_url` of the
fallback path) in its single notification payload, regardless of the
requested round. -/
theorem c4_round2_fallback_create_reports_round1 (env : Env) (db : DB) (req : BuildRequest)
    (hr : req.round = 2)
    (hq : findRound1Request db req.task = none)
    (hp : findRound1Response db req.task = none)
    (hrepo : env.getRepo = none)
    (hok : (build_app env db req).ok = true) :
    (build_app env db req).path = PathTaken.fallbackCreate ∧
    (build_app env db req).db.appRequests.getLast? = some (reqToAppRequest req 1) ∧
    (∃ gen repoUrl sha,
      (build_app env db req).db.llmResponses.getLast? =
        some { task := req.task, round_num := 1, generated_code := gen,
               repo_url := repoUrl, pages_url := .bool true, commit_sha := sha }) ∧
    (∃ repoUrl sha,
      (build_app env db req).notified =
        [(req.evaluation_url,
          { email := req.email, task := req.task, round := 1, nonce := req.nonce,
            repo_url := repoUrl, commit_sha := sha, pages_url := .bool true })]) := by
  have hb : build_app env db req = handle_round2_with_fallback env db req := by
    unfold build_app
    rw [if_neg (by omega)]
  rw [hb] at hok ⊢
  revert hok
  simp only [handle_round2_with_fallback, hq, hp]
  cases hI : insertAppRequest db (reqToAppRequest req 1) with
  | none => intro hok; simp [failRes] at hok
  | some db1 =>
    have hD : db1 = { db with appRequests := db.appRequests ++ [reqToAppRequest req 1] } := by
      unfold insertAppRequest at hI
      split at hI
      · exact absurd hI (by simp)
      · injection hI with h
        exact h.symm
    dsimp only
    rw [if_neg (generate_code_with_ai_ne_empty env.genOutcome)]
    split
    · intro hok
      exact absurd hok (by simp [failRes])
    · split
      · intro hok
        exact absurd hok (by simp)
      · split
        · intro hok
          rename_i repo hrep x sha hcw hpg
          refine ⟨rfl, ?_, ?_, ?_⟩
          · simp [insertLLMResponse, hD, List.getLast?_concat]
          · exact ⟨generate_code_with_ai env.genOutcome, repo.html_url, sha,
              by simp [insertLLMResponse, List.getLast?_concat]⟩
          · exact ⟨repo.html_url, sha, rfl⟩
        · intro hok
          exact absurd hok (by simp)

/-- A round-2 request for a task with no history, used by the C4 witness. -/
def c4req : BuildRequest :=
  { email := "a@b", task := "t4", round := 2, nonce := "n4", brief := "b4",
    checks := [], evaluation_url := "https://eval", attachments := [], secret := "s" }

/-- Oracle for the C4 witness: no repository `app-t4` exists, everything
else succeeds. -/
def c4env : Env :=
  { envOk with
    createRepo := some { name := "app-t4", html_url := "https://github.com/u/app-t4" } }

/-- Witness for C4 at a concrete input. -/
theorem c4_round2_fallback_create_reports_round1_witness :
    c4req.round = 2 ∧
      findRound1Request ⟨[], []⟩ c4req.task = none ∧
      findRound1Response ⟨[], []⟩ c4req.task = none ∧
      c4env.getRepo = none ∧
      (build_app c4env ⟨[], []⟩ c4req).ok = true ∧
      (build_app c4env ⟨[], []⟩ c4req).path = PathTaken.fallbackCreate ∧
      ((build_app c4env ⟨[], []⟩ c4req).notified.map fun p => p.2.round) = [1] := by
  refine ⟨rfl, rfl, rfl, rfl, by decide, ?_, ?_⟩
  · exact (c4_round2_fallback_create_reports_round1 c4env ⟨[], []⟩ c4req
      rfl rfl rfl rfl (by decide)).1
  · obtain ⟨-, -, -, repoUrl, sha, hn⟩ := c4_round2_fallback_create_reports_round1
      c4env ⟨[], []⟩ c4req rfl rfl rfl rfl (by decide)
    rw [hn]
    rfl

end AppBuilder

namespace AppBuilder

/-! ## C5: the revise-an-existing-repository fallback is unreachable -/

/-- Oracle for the C5 failing input: the repository `app-t5` exists at the
provider, and creating a repository with the same name fails (GitHub
refuses duplicate names); everything else succeeds. -/
def c5env : Env :=
  { envOk with
    getRepo := some { name := "app-t5", html_url := "https://github.com/u/app-t5" },
    createRepo := none }

/-- The round-2 request of the C5 failing input. -/
def c5req : BuildRequest :=
  { email := "a@b", task := "t5", round := 2, nonce := "n5", brief := "b5",
    checks := [], evaluation_url := "https://eval", attachments := [], secret := "s" }

/-- C5, evaluated at the failing input: with no round-1 rows but an existing
`app-t5` repository, the run *attempts* the revise call
(`reviseAttempted = true`), but the call raises `UnboundLocalError`
(`processed_attachments` referenced before assignment), the exception is
swallowed, and control falls into the create-new-repository fallback — which
then fails because the repository name is taken — so the Revise path never
executes, the run returns `false`, and no notification reports the
original round. -/
theorem c5_revise_path_unreachable :
    c5req.round = 2 ∧
      findRound1Request ⟨[], []⟩ c5req.task = none ∧
      c5env.getRepo.isSome = true ∧
      (build_app c5env ⟨[], []⟩ c5req).reviseAttempted = true ∧
      (build_app c5env ⟨[], []⟩ c5req).path = PathTaken.fallbackCreate ∧
      ¬ (build_app c5env ⟨[], []⟩ c5req).path = PathTaken.fallbackRevise ∧
      (build_app c5env ⟨[], []⟩ c5req).ok = false ∧
      (build_app c5env ⟨[], []⟩ c5req).notified = [] := by
  decide

/-! ## C7: the published entry point versus generated content -/

/-- Round-1 request carrying an attachment named `index.html` of non-text
MIME type: it shadows the generated entry point in the file dictionary. -/
def c7req : BuildRequest :=
  { email := "a@b", task := "t2", round := 1, nonce := "n7", brief := "b7",
    checks := [], evaluation_url := "https://eval",
    attachments := [{ name := "index.html",
                      url := "data:application/octet-stream;base64,aGVsbG8=" }],
    secret := "s" }

/-- C7 counterexample: a successful run whose provider output is
`<p>app</p>` nevertheless hands `aGVsbG8=` — the base64 of the attachment
bytes, neither the provider's output nor the fallback page — to the
provider as the `index.html` content: an attachment named `index.html`
overwrites the entry point, so the published entry-point content is not
always the provider's output or the fallback page (nor well-formed
markup). -/
theorem c7_counterexample :
    (build_app envOk ⟨[], []⟩ c7req).ok = true ∧
      List.lookup "index.html" (build_app envOk ⟨[], []⟩ c7req).providerWrites =
        some "aGVsbG8=" ∧
      generate_code_with_ai envOk.genOutcome = "<p>app</p>" ∧
      ¬ "aGVsbG8=" = "<p>app</p>" ∧
      ¬ "aGVsbG8=" = fallbackCalculator := by
  decide

/-- Oracle for the C7 witness: the provider call *raises*; everything else
succeeds. -/
def c7wenv : Env := { envOk with genOutcome := .error () }

/-- Round-1 request without attachments for the C7 witness. -/
def c7wreq : BuildRequest :=
  { email := "a@b", task := "t2", round := 1, nonce := "n7w", brief := "b7",
    checks := [], evaluation_url := "https://eval", attachments := [], secret := "s" }

end AppBuilder

namespace AppBuilder

/-! ## File-dictionary keys are independent of file contents

The publish steps succeed or fail depending only on the *paths* of the
files (`fileOk` is applied to `p.1`), never on their contents.  These
lemmas compute the key list of the file dictionary so that the run outcome
can be shown independent of the generated text. -/

/-- The effect of one `files[name] = content` assignment on the key list:
an existing key is overwritten in place, a new key is appended. -/
def insertKey (keys : List String) (k : String) : List String :=
  if keys.any (· == k) then keys else keys ++ [k]

/-- The key list of the file dictionary after the attachment loop, as a
function of the initial key list alone. -/
def attachKeys (keys : List String) : List ProcessedFile → List String
  | [] => keys
  | a :: rest =>
    let keys :=
      if strStartsWith a.mime_type "text/" || strEndsWith a.name ".json" then
        match utf8Decode a.content with
        | some _ => insertKey keys a.name
        | none => keys
      else insertKey keys a.name
    attachKeys keys rest

/-- `all` over pairs of a predicate on the first component, via the key
list. -/
theorem all_fst (f : String → Bool) :
    ∀ l : List (String × Content), (l.all fun p => f p.1) = (l.map Prod.fst).all f := by
  intro l
  induction l with
  | nil => rfl
  | cons p t ih => simp [List.all_cons, ih]

/-- `dictInsert` transforms the key list by `insertKey`. -/
theorem dictInsert_map_fst (l : List (String × Content)) (k : String) (v : Content) :
    (dictInsert l k v).map Prod.fst = insertKey (l.map Prod.fst) k := by
  unfold dictInsert insertKey
  have hany : (l.any fun p => p.1 == k) = ((l.map Prod.fst).any fun s => s == k) := by
    induction l with
    | nil => rfl
    | cons p t ih => simp [List.any_cons, ih]
  rw [hany]
  split
  · rw [List.map_map]
    apply List.map_congr_left
    intro p hp
    by_cases h : p.1 = k
    · simp [h]
    · simp [h]
  · rw [List.map_append]
    rfl

/-- The key list of the attachment loop's output depends only on the key
list of its input. -/
theorem addAttachmentFiles_map_fst_eq :
    ∀ (procs : List ProcessedFile) (base : List (String × Content)),
      (addAttachmentFiles base procs).map Prod.fst = attachKeys (base.map Prod.fst) procs := by
  intro procs
  induction procs with
  | nil => intro base; rfl
  | cons a rest ih =>
    intro base
    simp only [addAttachmentFiles, attachKeys]
    by_cases hc : (strStartsWith a.mime_type "text/" || strEndsWith a.name ".json") = true
    · rw [if_pos hc, if_pos hc]
      cases utf8Decode a.content with
      | some s => rw [ih, dictInsert_map_fst]
      | none => rw [ih]
    · rw [if_neg hc, if_neg hc, ih, dictInsert_map_fst]

/-- The revision identifier returned by `commit_and_push` as a function of
the key list. -/
theorem commit_and_push_fst (f : String → Bool) (sha : Option String)
    (files : List (String × Content)) :
    (commit_and_push f sha files).1 =
      if (files.map Prod.fst).all f then sha else none := by
  unfold commit_and_push
  rw [all_fst]
  split <;> rfl

/-- A key list is empty exactly when the file dictionary is. -/
theorem isEmpty_map_fst : ∀ l : List (String × Content),
    (l.map Prod.fst).isEmpty = l.isEmpty := by
  intro l; cases l <;> rfl

/-- The revision identifier returned by `update_existing_repo` as a
function of the key list. -/
theorem update_existing_repo_fst (rOk : Bool) (f : String → Bool)
    (cSha : Option String) (files : List (String × Content)) :
    (update_existing_repo rOk f cSha files).1 =
      if rOk then
        if (files.map Prod.fst).all f &&
            ((files.map Prod.fst).isEmpty || cSha.isSome) then
          (if (files.map Prod.fst).isEmpty then none else cSha)
        else none
      else none := by
  simp only [update_existing_repo]
  rw [all_fst]
  simp only [isEmpty_map_fst]
  split
  · rfl
  · rfl

end AppBuilder

namespace AppBuilder

/-! ## The run outcome does not depend on the generation outcome

Every abort decision of the orchestrator is driven by the store, the
repository oracle and the file *keys*; the generated text only changes file
*contents*.  Hence replacing the generation outcome — including by a raise
or an empty response, which yield the fallback page — never turns a
successful run into a failed one or vice versa. -/

/-- Round-1 runs: the returned boolean is independent of the generation
outcome. -/
theorem handle_round1_ok_gen (env : Env) (g : Except Unit (Option String))
    (db : DB) (req : BuildRequest) :
    (handle_round1 { env with genOutcome := g } db req).ok =
      (handle_round1 env db req).ok := by
  obtain ⟨u, yr, ns, go, cr, gr, g2, fw, ls, ur, cs, pg⟩ := env
  simp only [handle_round1]
  cases hI : insertAppRequest
      (if hasExactRound1 db req.task then deleteRound1 db req.task else db)
      (reqToAppRequest req req.round) with
  | none => rfl
  | some db1 =>
    dsimp only
    rw [if_neg (generate_code_with_ai_ne_empty g),
      if_neg (generate_code_with_ai_ne_empty go)]
    cases cr with
    | none => rfl
    | some repo =>
      dsimp only
      simp only [commit_and_push_fst, addAttachmentFiles_map_fst_eq,
        List.map_cons, List.map_nil]
      split
      · cases ls <;> rfl
      · rfl

end AppBuilder

namespace AppBuilder

/-- Normal round-2 runs: the returned boolean is independent of the
generation outcome. -/
theorem handle_round2_ok_gen (env : Env) (g : Except Unit (Option String))
    (db : DB) (req : BuildRequest) :
    (handle_round2 { env with genOutcome := g } db req).ok =
      (handle_round2 env db req).ok := by
  obtain ⟨u, yr, ns, go, cr, gr, g2, fw, ls, ur, cs, pg⟩ := env
  simp only [handle_round2]
  split
  · cases hI : insertAppRequest db (reqToAppRequest req req.round) with
    | none => rfl
    | some db1 =>
      dsimp only
      rw [if_neg (generate_code_with_ai_ne_empty g),
        if_neg (generate_code_with_ai_ne_empty go)]
      simp only [update_existing_repo_fst, addAttachmentFiles_map_fst_eq,
        List.map_cons, List.map_nil]
      split
      · rfl
      · cases g2 <;> rfl
  · rfl

/-- Fallback round-2 runs: the returned boolean is independent of the
generation outcome. -/
theorem handle_round2_with_fallback_ok_gen (env : Env) (g : Except Unit (Option String))
    (db : DB) (req : BuildRequest) :
    (handle_round2_with_fallback { env with genOutcome := g } db req).ok =
      (handle_round2_with_fallback env db req).ok := by
  obtain ⟨u, yr, ns, go, cr, gr, g2, fw, ls, ur, cs, pg⟩ := env
  simp only [handle_round2_with_fallback]
  split
  · exact handle_round2_ok_gen ⟨u, yr, ns, go, cr, gr, g2, fw, ls, ur, cs, pg⟩ g db req
  · cases hI : insertAppRequest db (reqToAppRequest req 1) with
    | none => rfl
    | some db1 =>
      dsimp only
      rw [if_neg (generate_code_with_ai_ne_empty g),
        if_neg (generate_code_with_ai_ne_empty go)]
      cases cr with
      | none => rfl
      | some repo =>
        dsimp only
        simp only [commit_and_push_fst, addAttachmentFiles_map_fst_eq,
          List.map_cons, List.map_nil]
        split
        · rfl
        · cases pg <;> rfl

/-- A whole `build_app` run: the returned boolean is independent of the
generation outcome — generation failure alone never aborts a build. -/
theorem build_app_ok_gen (env : Env) (g : Except Unit (Option String))
    (db : DB) (req : BuildRequest) :
    (build_app { env with genOutcome := g } db req).ok = (build_app env db req).ok := by
  unfold build_app
  split
  · exact handle_round1_ok_gen env g db req
  · exact handle_round2_with_fallback_ok_gen env g db req

end AppBuilder

namespace AppBuilder

/-! ## The published entry point of each successful path -/

/-- Successful round-1 runs whose resolved attachments avoid the name
`index.html` publish the generated (or fallback) text as `index.html` and
store it in the new generation row. -/
theorem handle_round1_success_content (env : Env) (db : DB) (req : BuildRequest)
    (hok : (handle_round1 env db req).ok = true)
    (hatt : ∀ a ∈ process_attachments req.attachments, ¬ a.name = "index.html") :
    List.lookup "index.html" (handle_round1 env db req).publishedFiles =
      some (.str (generate_code_with_ai env.genOutcome)) ∧
    ∃ r, (handle_round1 env db req).db.llmResponses.getLast? = some r ∧
      r.generated_code = generate_code_with_ai env.genOutcome := by
  revert hok
  simp only [handle_round1]
  cases hI : insertAppRequest
      (if hasExactRound1 db req.task then deleteRound1 db req.task else db)
      (reqToAppRequest req req.round) with
  | none => intro hok; simp [failRes] at hok
  | some db1 =>
    dsimp only
    rw [if_neg (generate_code_with_ai_ne_empty env.genOutcome)]
    split
    · intro hok
      exact absurd hok (by simp [failRes])
    · split
      · intro hok
        exact absurd hok (by simp)
      · intro hok
        rename_i repo hrep x sha hcw
        constructor
        · rw [lookup_addAttachmentFiles_of_not_mem "index.html" _ _
            (fun a ha he => hatt a ha he)]
          simp [lookup_cons]
        · exact ⟨{ task := req.task, round_num := req.round,
                   generated_code := generate_code_with_ai env.genOutcome,
                   repo_url := repo.html_url,
                   pages_url := .str (get_pages_url env.username repo.name),
                   commit_sha := sha },
            by simp [insertLLMResponse, List.getLast?_concat], rfl⟩

/-- Successful normal round-2 runs whose resolved attachments avoid the
name `index.html` publish the generated (or fallback) text as `index.html`
and store it in the new generation row. -/
theorem handle_round2_success_content (env : Env) (db : DB) (req : BuildRequest)
    (r1req : AppRequest) (r1resp : LLMResponse)
    (hq : findRound1Request db req.task = some r1req)
    (hp : findRound1Response db req.task = some r1resp)
    (hok : (handle_round2 env db req).ok = true)
    (hatt : ∀ a ∈ process_attachments req.attachments, ¬ a.name = "index.html") :
    List.lookup "index.html" (handle_round2 env db req).publishedFiles =
      some (.str (generate_code_with_ai env.genOutcome)) ∧
    ∃ r, (handle_round2 env db req).db.llmResponses.getLast? = some r ∧
      r.generated_code = generate_code_with_ai env.genOutcome := by
  revert hok
  simp only [handle_round2, hq, hp]
  cases hI : insertAppRequest db (reqToAppRequest req req.round) with
  | none => intro hok; simp [failRes] at hok
  | some db1 =>
    dsimp only
    rw [if_neg (generate_code_with_ai_ne_empty env.genOutcome)]
    split
    · intro hok
      exact absurd hok (by simp)
    · split
      · intro hok
        rename_i x sha heq2 hgr
        constructor
        · rw [lookup_addAttachmentFiles_of_not_mem "index.html" _ _
            (fun a ha he => hatt a ha he)]
          simp [lookup_cons]
        · exact ⟨{ task := req.task, round_num := req.round,
                   generated_code := generate_code_with_ai env.genOutcome,
                   repo_url := r1resp.repo_url, pages_url := r1resp.pages_url,
                   commit_sha := sha },
            by simp [insertLLMResponse, List.getLast?_concat], rfl⟩
      · intro hok
        exact absurd hok (by simp)

end AppBuilder

namespace AppBuilder

/-- Successful fallback-create round-2 runs (no round-1 rows) whose
resolved attachments avoid the name `index.html` publish the generated (or
fallback) text as `index.html` and store it in the new generation row. -/
theorem fallback_create_success_content (env : Env) (db : DB) (req : BuildRequest)
    (hnf : findRound1Request db req.task = none ∨ findRound1Response db req.task = none)
    (hok : (handle_round2_with_fallback env db req).ok = true)
    (hatt : ∀ a ∈ process_attachments req.attachments, ¬ a.name = "index.html") :
    List.lookup "index.html" (handle_round2_with_fallback env db req).publishedFiles =
      some (.str (generate_code_with_ai env.genOutcome)) ∧
    ∃ r, (handle_round2_with_fallback env db req).db.llmResponses.getLast? = some r ∧
      r.generated_code = generate_code_with_ai env.genOutcome := by
  revert hok
  have core : ∀ res : RunResult,
      res = (let reviseAttempted := env.getRepo.isSome
        match insertAppRequest db (reqToAppRequest req 1) with
        | none => failRes db .fallbackCreate reviseAttempted
        | some db =>
          let processed := process_attachments req.attachments
          let generated := generate_code_with_ai env.genOutcome
          if generated = "" then failRes db .fallbackCreate reviseAttempted
          else
            match env.createRepo with
            | none => failRes db .fallbackCreate reviseAttempted
            | some repo =>
              let files := [("index.html", Content.str generated),
                            ("LICENSE", Content.str (create_mit_license env.year env.username)),
                            ("README.md", Content.str (create_readme req.task req.brief 1
                              repo.html_url
                              ("https://" ++ env.username ++ ".github.io/" ++ repo.name ++ "/")
                              env.nowStr))]
              let files := addAttachmentFiles files processed
              let cw := commit_and_push env.fileWriteOk env.latestSha files
              match cw.1 with
              | none =>
                { db := db, notified := [], ok := false, path := .fallbackCreate,
                  reviseAttempted := reviseAttempted,
                  publishedFiles := files, providerWrites := cw.2 }
              | some sha =>
                if env.pagesOk then
                  let db := insertLLMResponse db
                    { task := req.task, round_num := 1,
                      generated_code := generated,
                      repo_url := repo.html_url, pages_url := .bool true, commit_sha := sha }
                  let payload : Payload :=
                    { email := req.email, task := req.task, round := 1, nonce := req.nonce,
                      repo_url := repo.html_url, commit_sha := sha, pages_url := .bool true }
                  { db := db, notified := [(req.evaluation_url, payload)], ok := true,
                    path := .fallbackCreate, reviseAttempted := reviseAttempted,
                    publishedFiles := files, providerWrites := cw.2 }
                else
                  { db := db, notified := [], ok := false, path := .fallbackCreate,
                    reviseAttempted := reviseAttempted,
                    publishedFiles := files, providerWrites := cw.2 }) →
      res.ok = true →
      List.lookup "index.html" res.publishedFiles =
        some (.str (generate_code_with_ai env.genOutcome)) ∧
      ∃ r, res.db.llmResponses.getLast? = some r ∧
        r.generated_code = generate_code_with_ai env.genOutcome := by
    intro res hres
    subst hres
    revert hatt
    cases hI : insertAppRequest db (reqToAppRequest req 1) with
    | none => intro hatt hok; simp [failRes] at hok
    | some db1 =>
      intro hatt
      dsimp only
      rw [if_neg (generate_code_with_ai_ne_empty env.genOutcome)]
      split
      · intro hok
        exact absurd hok (by simp [failRes])
      · split
        · intro hok
          exact absurd hok (by simp)
        · split
          · intro hok
            rename_i repo hrep x sha hcw hpg
            constructor
            · rw [lookup_addAttachmentFiles_of_not_mem "index.html" _ _
                (fun a ha he => hatt a ha he)]
              simp [lookup_cons]
            · exact ⟨{ task := req.task, round_num := 1,
                       generated_code := generate_code_with_ai env.genOutcome,
                       repo_url := repo.html_url, pages_url := .bool true,
                       commit_sha := sha },
                by simp [insertLLMResponse, List.getLast?_concat], rfl⟩
          · intro hok
            exact absurd hok (by simp)
  rcases hnf with hq | hp
  · simp only [handle_round2_with_fallback, hq]
    exact core _ rfl
  · cases hq : findRound1Request db req.task with
    | none =>
      simp only [handle_round2_with_fallback, hq]
      exact core _ rfl
    | some r1 =>
      simp only [handle_round2_with_fallback, hq, hp]
      exact core _ rfl

end AppBuilder

namespace AppBuilder

/-- C7 amended: (a) generation-provider failure never aborts a build — the
boolean result of a whole `build_app` run is unchanged under *any*
replacement of the generation outcome (a raise, a non-200 response, empty
text, or any output), because the fallback page is substituted and every
abort decision depends only on the store, the repository oracle and the
file keys; and (b) in every successful run — round-1, normal round-2 or
fallback-create — whose resolved attachments do not include one named
`index.html`, the published entry point and the stored `GenerationRecord`
content coincide and are non-empty: either the cleaned provider output or
the fixed fallback page (a `<!DOCTYPE html>` document).  An attachment
named `index.html` can overwrite the published entry point (see the
counterexample), hence the attachment hypothesis. -/
theorem c7_generation_fallback_amended (env : Env) (db : DB) (req : BuildRequest) :
    (∀ g g' : Except Unit (Option String),
      (build_app { env with genOutcome := g } db req).ok =
        (build_app { env with genOutcome := g' } db req).ok) ∧
    ((build_app env db req).ok = true →
      (∀ a ∈ process_attachments req.attachments, ¬ a.name = "index.html") →
      ∃ gen, gen = generate_code_with_ai env.genOutcome ∧
        List.lookup "index.html" (build_app env db req).publishedFiles =
          some (.str gen) ∧
        ¬ gen = "" ∧
        (gen = fallbackCalculator ∨
          ∃ raw, env.genOutcome = .ok (some raw) ∧ gen = cleanGeneratedCode raw) ∧
        (∃ r, (build_app env db req).db.llmResponses.getLast? = some r ∧
          r.generated_code = gen) ∧
        strStartsWith fallbackCalculator "<!DOCTYPE html>" = true) := by
  constructor
  · intro g g'
    exact (build_app_ok_gen env g db req).trans (build_app_ok_gen env g' db req).symm
  · intro hok hatt
    have hcore : List.lookup "index.html" (build_app env db req).publishedFiles =
        some (.str (generate_code_with_ai env.genOutcome)) ∧
        ∃ r, (build_app env db req).db.llmResponses.getLast? = some r ∧
          r.generated_code = generate_code_with_ai env.genOutcome := by
      by_cases h1 : req.round = 1
      · have hb : build_app env db req = handle_round1 env db req := by
          unfold build_app; rw [if_pos h1]
        rw [hb] at hok ⊢
        exact handle_round1_success_content env db req hok hatt
      · have hb : build_app env db req = handle_round2_with_fallback env db req := by
          unfold build_app; rw [if_neg h1]
        rw [hb] at hok ⊢
        cases hq : findRound1Request db req.task with
        | none => exact fallback_create_success_content env db req (Or.inl hq) hok hatt
        | some r1req =>
          cases hp : findRound1Response db req.task with
          | none => exact fallback_create_success_content env db req (Or.inr hp) hok hatt
          | some r1resp =>
            have hb2 : handle_round2_with_fallback env db req = handle_round2 env db req := by
              simp only [handle_round2_with_fallback, hq, hp]
            rw [hb2] at hok ⊢
            exact handle_round2_success_content env db req r1req r1resp hq hp hok hatt
    exact ⟨generate_code_with_ai env.genOutcome, rfl, hcore.1,
      generate_code_with_ai_ne_empty env.genOutcome,
      generate_code_with_ai_cases env.genOutcome, hcore.2, by decide⟩

/-- Witness for C7 amended at a concrete input: the provider *raises*, the
build still succeeds — over this environment the run outcome is the same
for every generation outcome — and the published entry point is the
fallback page. -/
theorem c7_generation_fallback_amended_witness :
    (build_app c7wenv ⟨[], []⟩ c7wreq).ok = true ∧
      (∀ a ∈ process_attachments c7wreq.attachments, ¬ a.name = "index.html") ∧
      (∀ g g' : Except Unit (Option String),
        (build_app { c7wenv with genOutcome := g } ⟨[], []⟩ c7wreq).ok =
          (build_app { c7wenv with genOutcome := g' } ⟨[], []⟩ c7wreq).ok) ∧
      (∃ gen, gen = generate_code_with_ai c7wenv.genOutcome ∧
        List.lookup "index.html" (build_app c7wenv ⟨[], []⟩ c7wreq).publishedFiles =
          some (.str gen) ∧
        ¬ gen = "" ∧
        (gen = fallbackCalculator ∨
          ∃ raw, c7wenv.genOutcome = .ok (some raw) ∧ gen = cleanGeneratedCode raw) ∧
        (∃ r, (build_app c7wenv ⟨[], []⟩ c7wreq).db.llmResponses.getLast? = some r ∧
          r.generated_code = gen) ∧
        strStartsWith fallbackCalculator "<!DOCTYPE html>" = true) := by
  refine ⟨by decide, by decide,
    (c7_generation_fallback_amended c7wenv ⟨[], []⟩ c7wreq).1,
    (c7_generation_fallback_amended c7wenv ⟨[], []⟩ c7wreq).2 (by decide) (by decide)⟩

end AppBuilder
